import Mathlib

/-!
# Timetable extraction (`internal/excel/parser.go`)

Shallow embedding of the spreadsheet parser of `cnis-back`, of the scheduler job
that runs it (`internal/cron/scheduler.go`), of the save operation it calls
(`internal/db/db.go`) and of the pieces of the Go standard library it uses.

Text is modelled as a list of Unicode code points (`Str`).  Go strings are byte
sequences; for well-formed UTF-8 text the operations used here (`Split` on a
one-rune separator, `TrimSpace`, `Index`/`Contains` of a well-formed needle,
`ToLower`, slicing at an offset returned by `Index`) cut and compare at
code-point boundaries, so they act on the code-point sequence.
-/

namespace CnisBack

/-- Text of a cell, a sheet name, a cell address: a sequence of code points. -/
abbrev Str := List Char

/-! ## Go standard library: `unicode`, `strings` -/

/-- Go `unicode.IsSpace`: the Unicode White_Space property. -/
def unicode_IsSpace (c : Char) : Bool :=
  let n := c.toNat
  n == 0x09 || n == 0x0A || n == 0x0B || n == 0x0C || n == 0x0D || n == 0x20 ||
  n == 0x85 || n == 0xA0 || n == 0x1680 || (decide (0x2000 ≤ n) && decide (n ≤ 0x200A)) ||
  n == 0x2028 || n == 0x2029 || n == 0x202F || n == 0x205F || n == 0x3000

/-- Go `strings.TrimSpace`: leading and trailing white space removed. -/
def strings_TrimSpace (s : Str) : Str :=
  (s.dropWhile unicode_IsSpace).rdropWhile unicode_IsSpace

/-- Go `strings.ToLower`: every rune mapped through `unicode.ToLower`.  The
Unicode case tables behind `unicode.ToLower` belong to the Go standard library,
not to the repository; `lower` stands for that function and every general
statement below holds whatever it is. -/
def strings_ToLower (lower : Char → Char) (s : Str) : Str := s.map lower

/-- Go `strings.Index`: position of the first occurrence of `substr` in `s`
(counted in code points), `none` for Go's `-1`. -/
def strings_Index : Str → Str → Option Nat
  | [], substr => if substr.isEmpty then some 0 else none
  | c :: cs, substr =>
    if substr.isPrefixOf (c :: cs) then some 0
    else (strings_Index cs substr).map (· + 1)

/-- Go `strings.Contains`: `Index(s, substr) >= 0`. -/
def strings_Contains (s substr : Str) : Bool := (strings_Index s substr).isSome

/-- Go `strings.HasPrefix`. -/
def strings_HasPrefix (s pre : Str) : Bool := pre.isPrefixOf s

/-- Go `strings.Split(s, sep)` for a separator of one rune: the pieces of `s`
between the occurrences of `sep`; never the empty list (`Split("", sep)` is `[""]`). -/
def strings_Split (s : Str) (sep : Char) : List Str :=
  match s with
  | [] => [[]]
  | c :: cs =>
    if c = sep then [] :: strings_Split cs sep
    else
      match strings_Split cs sep with
      | [] => [[c]]
      | p :: ps => (c :: p) :: ps

/-- Go `strings.TrimRightFunc`. -/
def strings_TrimRightFunc (s : Str) (f : Char → Bool) : Str := s.rdropWhile f

/-- Go `strings.TrimLeftFunc`. -/
def strings_TrimLeftFunc (s : Str) (f : Char → Bool) : Str := s.dropWhile f

/-! ## `parseDayToIndex` -/

/-- Source `parseDayToIndex` (parser.go 363-384): the `switch` is a chain of
guards tried from Monday to Sunday. -/
def parseDayToIndex (lower : Char → Char) (day : Str) : Int :=
  let day := strings_ToLower lower (strings_TrimSpace day)
  if strings_Contains day "понедельник".toList || strings_Contains day "mon".toList then 1
  else if strings_Contains day "вторник".toList || strings_Contains day "tue".toList then 2
  else if strings_Contains day "среда".toList || strings_Contains day "wed".toList then 3
  else if strings_Contains day "четверг".toList || strings_Contains day "thu".toList then 4
  else if strings_Contains day "пятница".toList || strings_Contains day "fri".toList then 5
  else if strings_Contains day "суббота".toList || strings_Contains day "sat".toList then 6
  else if strings_Contains day "воскресенье".toList || strings_Contains day "sun".toList then 7
  else 0

/-! ## Go standard library: `time`, `strconv`; `excelize.ColumnNumberToName` -/

/-- ASCII decimal digit test (Go `'0' <= c && c <= '9'`). -/
def isDigitRune (c : Char) : Bool := decide ('0'.toNat ≤ c.toNat) && decide (c.toNat ≤ '9'.toNat)

/-- Value of an ASCII digit (Go `int(c - '0')`). -/
def digitVal (c : Char) : Nat := c.toNat - '0'.toNat

/-- Go `time.getnum` (time/format.go): parses `s[0:1]` or `s[0:2]` as a decimal
number and returns it with the rest of the text; `fixed` forces two digits.
```
if !isDigit(s, 0) { return 0, s, errBad }
if !isDigit(s, 1) { if fixed { return 0, s, errBad }; return int(s[0]-'0'), s[1:], nil }
return int(s[0]-'0')*10 + int(s[1]-'0'), s[2:], nil
``` -/
def time_getnum (s : Str) (fixed : Bool) : Option (Nat × Str) :=
  match s with
  | [] => none
  | c0 :: rest =>
    if !isDigitRune c0 then none
    else
      match rest with
      | [] => if fixed then none else some (digitVal c0, [])
      | c1 :: rest2 =>
        if !isDigitRune c1 then (if fixed then none else some (digitVal c0, c1 :: rest2))
        else some (digitVal c0 * 10 + digitVal c1, rest2)

/-- Go `time.Parse("15:04", value)`, returning the hour and the minute of the
parsed time (the only parts the parser reads back, through `Hour()` and
`Minute()`), `none` when Go returns an error.  The layout has three chunks:
`15` (`stdHour`: `getnum(value, false)`, range `0 <= hour < 24`), the literal
`:`, and `04` (`stdZeroMinute`: `getnum(value, true)`, range `0 <= min < 60`);
text left over is the error "extra text". -/
def time_Parse_15_04 (value : Str) : Option (Nat × Nat) :=
  match time_getnum value false with
  | none => none
  | some (hour, value1) =>
    if 24 ≤ hour then none
    else
      match value1 with
      | [] => none
      | c :: value2 =>
        if c ≠ ':' then none
        else
          match time_getnum value2 true with
          | none => none
          | some (min, value3) =>
            if 60 ≤ min then none
            else if value3 ≠ [] then none
            else some (hour, min)

/-- Go `time.Time` in UTC, by its calendar fields. -/
structure Time where
  year : Int
  month : Nat
  day : Nat
  hour : Nat
  minute : Nat
  second : Nat
  nsec : Nat
  deriving DecidableEq, Repr

/-- Go `time.Date(year, month, day, hour, min, sec, nsec, time.UTC)` for
arguments inside their ranges (the parser passes `hour < 24`, `min < 60`),
where no normalisation takes place. -/
def time_Date (year : Int) (month day hour min sec nsec : Nat) : Time :=
  { year := year, month := month, day := day, hour := hour, minute := min,
    second := sec, nsec := nsec }

/-- Seconds-and-nanoseconds key of a `Time` within its month, used to compare
two times of the same year and month. -/
def Time.key (t : Time) : Nat :=
  (((t.day * 24 + t.hour) * 60 + t.minute) * 60 + t.second) * 1000000000 + t.nsec

/-- Go `t.Before(u)` for UTC times with in-range fields: chronological order. -/
def Time.Before (t u : Time) : Bool :=
  decide (t.year < u.year) ||
  (decide (t.year = u.year) &&
    (decide (t.month < u.month) || (decide (t.month = u.month) && decide (t.key < u.key))))

/-- Decimal value of a run of ASCII digits, `none` if some rune is not a digit. -/
def atoiDigits : Str → Nat → Option Nat
  | [], acc => some acc
  | c :: cs, acc => if isDigitRune c then atoiDigits cs (acc * 10 + digitVal c) else none

/-- Go `strconv.Atoi` on a 64-bit platform: an optional sign, then one or more
decimal digits, value within the `int` range; `none` when Go returns an error. -/
def strconv_Atoi (s : Str) : Option Int :=
  match s with
  | [] => none
  | c :: rest =>
    let neg : Bool := c = '-'
    let ds : Str := if c = '-' ∨ c = '+' then rest else c :: rest
    if ds = [] then none
    else
      match atoiDigits ds 0 with
      | none => none
      | some n =>
        let v : Int := if neg then -(n : Int) else (n : Int)
        if -(2 : Int) ^ 63 ≤ v ∧ v ≤ (2 : Int) ^ 63 - 1 then some v else none

/-- Letters of a column number, most significant first (the second loop of
`excelize.ColumnNumberToName`): `result[i] = byte((num-1)%26 + 'A')`,
`num = (num-1)/26` while `num > 0`. -/
def columnLetters : Nat → Nat → Str
  | 0, _ => []
  | _, 0 => []
  | fuel + 1, num + 1 => columnLetters fuel (num / 26) ++ [Char.ofNat (num % 26 + 'A'.toNat)]

/-- Source `excelize.ColumnNumberToName(num)` with the error dropped, as the
caller does (`colName, _ :=`): the empty name outside `1..16384`. -/
def ColumnNumberToName (num : Nat) : Str :=
  if num < 1 ∨ 16384 < num then [] else columnLetters num num

/-- Go `strconv.Itoa` / `%d` for a non-negative number. -/
def strconv_Itoa (n : Nat) : Str := (Nat.repr n).toList

/-! ## Data model -/

/-- Source `models.Lesson` (models/lesson.go). -/
structure Lesson where
  ID : Nat
  Grade : Int
  GradeLetter : Str
  LessonDay : Int
  LessonStart : Time
  LessonEnd : Time
  LessonName : Str
  LessonTeacher : Str
  LessonClass : Str
  LessonGroup : Str
  deriving DecidableEq, Repr

/-- Go `time.Time{}`: January 1, year 1, 00:00:00 UTC. -/
def Time.zero : Time := time_Date 1 1 1 0 0 0 0

/-- Go `lesson.Lesson{}`: the zero value. -/
def Lesson.zero : Lesson :=
  { ID := 0, Grade := 0, GradeLetter := [], LessonDay := 0, LessonStart := Time.zero,
    LessonEnd := Time.zero, LessonName := [], LessonTeacher := [], LessonClass := [],
    LessonGroup := [] }

/-- Errors returned by the parser: an error of a library call, or one of the two
wrappings made by `ParseExcel` with `fmt.Errorf`; `panic` stands for a Go
run-time panic (index out of range), which unwinds through every caller. -/
inductive Error where
  | lib (msg : Str)
  | parsingSheet (sheetName : Str) (cause : Error)
  | savingSheet (sheetName : Str) (cause : Error)
  | panic
  deriving DecidableEq, Repr

/-- Source `excelize.MergeCell`: a merged range with its text and its two corner
addresses (`GetCellValue`, `GetStartAxis`, `GetEndAxis`). -/
structure MergeCell where
  value : Str
  startAxis : Str
  endAxis : Str
  deriving DecidableEq, Repr

/-- One sheet of an opened workbook, by the four reads the parser performs on it. -/
structure Sheet where
  /-- the sheet name, as listed by `GetSheetList` -/
  name : Str
  /-- the result of `f.GetCellValue(sheetName, "A1")` -/
  cellA1 : Except Error Str
  /-- the result of `f.GetRows(sheetName)` -/
  rows : Except Error (List (List Str))
  /-- the result of `f.GetCellValue(sheetName, address, Options{RawCellValue: true})` -/
  rawCell : Str → Except Error Str
  /-- the result of `f.GetMergeCells(sheetName)` -/
  mergeCells : Except Error (List MergeCell)

/-- The text of a cell read with the error dropped (`timeCell, _ :=`): excelize
returns the empty string together with an error. -/
def Sheet.rawCellText (f : Sheet) (address : Str) : Str :=
  match f.rawCell address with
  | .ok v => v
  | .error _ => []

/-- Source `map[string][2]string`: the grade header, the latest binding of a
key first. -/
abbrev GradeMap := List (Str × (Str × Str))

/-! ## The two lesson builders -/

/-- The subgroup marker `"№"` (U+2116), one code point. -/
def marker : Str := "№".toList

/-- Source `parseRowLesson` (parser.go 157-240).  The sheet handle and the
sheet name are the `Sheet`; `(Lesson.zero, false)` is `lesson.Lesson{}, false`. -/
def parseRowLesson (lower : Char → Char) (f : Sheet) (rowIndex : Nat) (colName cellValue : Str)
    (colToGrade : GradeMap) (lessonDay : Str) : Lesson × Bool :=
  let lessonDetails := strings_Split cellValue '\n'
  if lessonDetails.length = 0 ∨ strings_TrimSpace (lessonDetails.getD 0 []) = [] then
    (Lesson.zero, false)
  else
    let timeCell := f.rawCellText ("B".toList ++ strconv_Itoa (rowIndex + 1))
    let timeParts := strings_Split timeCell '-'
    let start : Str := if timeParts.length = 2 then strings_TrimSpace (timeParts.getD 0 []) else []
    let end_ : Str := if timeParts.length = 2 then strings_TrimSpace (timeParts.getD 1 []) else []
    if start = [] ∨ end_ = [] then (Lesson.zero, false)
    else
      match colToGrade.lookup colName with
      | none => (Lesson.zero, false)
      | some gradeParts =>
        match strconv_Atoi gradeParts.1 with
        | none => (Lesson.zero, false)
        | some gradeNumber =>
          let gradeLetter := gradeParts.2
          let lessonName := strings_TrimSpace (lessonDetails.getD 0 [])
          let idx := strings_Index lessonName marker
          let lessonGroup : Str :=
            match idx with
            | some i => strings_TrimSpace (lessonName.drop i)
            | none => []
          let lessonName1 : Str :=
            match idx with
            | some i => strings_TrimSpace (lessonName.take i)
            | none => lessonName
          let gradeLetter1 : Str :=
            match idx with
            | some _ => []
            | none => gradeLetter
          match time_Parse_15_04 start with
          | none => (Lesson.zero, false)
          | some startTime =>
            match time_Parse_15_04 end_ with
            | none => (Lesson.zero, false)
            | some endTime =>
              ({ ID := 0
                 Grade := gradeNumber
                 GradeLetter := gradeLetter1
                 LessonDay := parseDayToIndex lower lessonDay
                 LessonStart := time_Date 2000 1 1 startTime.1 startTime.2 0 0
                 LessonEnd := time_Date 2000 1 1 endTime.1 endTime.2 0 0
                 LessonName := lessonName1
                 LessonTeacher :=
                   if 2 ≤ lessonDetails.length then strings_TrimSpace (lessonDetails.getD 1 [])
                   else []
                 LessonClass :=
                   if 3 ≤ lessonDetails.length then strings_TrimSpace (lessonDetails.getD 2 [])
                   else []
                 LessonGroup := lessonGroup }, true)

/-- Body of the loop of source `parseMergedLessons` (parser.go 257-357) for one
merged range: `some lesson` when the range is appended to `lessons`, `none`
when the iteration ends in `continue`. -/
def parseMergedLesson (lower : Char → Char) (f : Sheet) (colToGrade : GradeMap) (lessonDay : Str)
    (mc : MergeCell) : Option Lesson :=
  let val := mc.value
  if val = [] then none
  else
    let startAxis := mc.startAxis
    let endAxis := mc.endAxis
    let startCol := strings_TrimRightFunc startAxis isDigitRune
    let endRow := strings_TrimLeftFunc endAxis (fun r => !isDigitRune r)
    let lessonDetails := strings_Split val '\n'
    if lessonDetails.length = 0 ∨ strings_TrimSpace (lessonDetails.getD 0 []) = [] then none
    else
      let timeCell := f.rawCellText ("B".toList ++ endRow)
      let timeParts := strings_Split timeCell '-'
      let start : Str :=
        if timeParts.length = 2 then strings_TrimSpace (timeParts.getD 0 []) else []
      let end_ : Str :=
        if timeParts.length = 2 then strings_TrimSpace (timeParts.getD 1 []) else []
      if start = [] ∨ end_ = [] then none
      else
        match colToGrade.lookup startCol with
        | none => none
        | some gradeParts =>
          match strconv_Atoi gradeParts.1 with
          | none => none
          | some gradeNumber =>
            let gradeLetter := gradeParts.2
            let lessonName := strings_TrimSpace (lessonDetails.getD 0 [])
            let idx := strings_Index lessonName marker
            let lessonGroup : Str :=
              match idx with
              | some i => strings_TrimSpace (lessonName.drop i)
              | none => []
            let lessonName1 : Str :=
              match idx with
              | some i => strings_TrimSpace (lessonName.take i)
              | none => lessonName
            let gradeLetter1 : Str :=
              match idx with
              | some _ => []
              | none => gradeLetter
            match time_Parse_15_04 start with
            | none => none
            | some startTime =>
              match time_Parse_15_04 end_ with
              | none => none
              | some endTime =>
                some
                  { ID := 0
                    Grade := gradeNumber
                    GradeLetter := gradeLetter1
                    LessonDay := parseDayToIndex lower lessonDay
                    LessonStart := time_Date 2000 1 1 startTime.1 startTime.2 0 0
                    LessonEnd := time_Date 2000 1 1 endTime.1 endTime.2 0 0
                    LessonName := lessonName1
                    LessonTeacher :=
                      if 2 ≤ lessonDetails.length then
                        strings_TrimSpace (lessonDetails.getD 1 [])
                      else []
                    LessonClass :=
                      if 3 ≤ lessonDetails.length then
                        strings_TrimSpace (lessonDetails.getD 2 [])
                      else []
                    LessonGroup := lessonGroup }

/-- Source `parseMergedLessons` (parser.go 243-361): the merged ranges are
visited in the order `GetMergeCells` lists them and each emitted lesson is
appended; the `skipped` counter is only logged. -/
def parseMergedLessons (lower : Char → Char) (f : Sheet) (colToGrade : GradeMap) (lessonDay : Str) :
    Except Error (List Lesson) :=
  match f.mergeCells with
  | .error e => .error e
  | .ok mergedCells => .ok (mergedCells.filterMap (parseMergedLesson lower f colToGrade lessonDay))

/-! ## `parseSheet` -/

/-- Header branch of the inner loop of source `parseSheet` (parser.go 120-130)
for one cell of the first row; `none` is the run-time panic of
`runes[len(runes)-1]` on an empty rune slice. -/
def headerCell (colToGrade : GradeMap) (colName cellValue : Str) : Option GradeMap :=
  if colName = "A".toList ∨ colName = "B".toList ∨ cellValue = [] then some colToGrade
  else
    let runes := cellValue
    match runes.get? (runes.length - 1) with
    | none => none
    | some last =>
      let gradeLetter : Str := [last]
      let gradeNumber : Str := runes.take (runes.length - 1)
      some ((colName, (gradeNumber, gradeLetter)) :: colToGrade)

/-- The inner loop of `parseSheet` over the first row, from column index
`colIndex` on. -/
def headerRow : GradeMap → Nat → List Str → Option GradeMap
  | colToGrade, _, [] => some colToGrade
  | colToGrade, colIndex, cellValue :: rest =>
    match headerCell colToGrade (ColumnNumberToName (colIndex + 1)) cellValue with
    | none => none
    | some colToGrade1 => headerRow colToGrade1 (colIndex + 1) rest

/-- The inner loop of `parseSheet` over a data row (parser.go 132-144), from
column index `colIndex` on: the lessons appended, in column order. -/
def dataRow (lower : Char → Char)
    (f : Sheet) (colToGrade : GradeMap) (lessonDay : Str) (rowIndex : Nat) :
    Nat → List Str → List Lesson
  | _, [] => []
  | colIndex, cellValue :: rest =>
    let colName := ColumnNumberToName (colIndex + 1)
    if colName = "A".toList ∨ colName = "B".toList then
      dataRow lower f colToGrade lessonDay rowIndex (colIndex + 1) rest
    else
      match parseRowLesson lower f rowIndex colName cellValue colToGrade lessonDay with
      | (lesson, true) =>
        lesson :: dataRow lower f colToGrade lessonDay rowIndex (colIndex + 1) rest
      | (_, false) => dataRow lower f colToGrade lessonDay rowIndex (colIndex + 1) rest

/-- The outer loop of `parseSheet` over the data rows, from row index `rowIndex` on. -/
def dataRows (lower : Char → Char) (f : Sheet) (colToGrade : GradeMap) (lessonDay : Str) :
    Nat → List (List Str) → List Lesson
  | _, [] => []
  | rowIndex, row :: rest =>
    dataRow lower f colToGrade lessonDay rowIndex 0 row ++
      dataRows lower f colToGrade lessonDay (rowIndex + 1) rest

/-- The grade header `parseSheet` has built when its loop leaves the first row
(`rowIndex == 0`); the empty map for a sheet without rows. -/
def gradeHeader (rows : List (List Str)) : Option GradeMap :=
  match rows with
  | [] => some []
  | header :: _ => headerRow [] 0 header

/-- Source `parseSheet` (parser.go 99-155).  Row 0 fills `colToGrade`, which is
complete before the first data row is visited. -/
def parseSheet (lower : Char → Char) (f : Sheet) : Except Error (List Lesson) :=
  match f.cellA1 with
  | .error e => .error e
  | .ok lessonDay =>
    match f.rows with
    | .error e => .error e
    | .ok rows =>
      match gradeHeader rows with
      | none => .error Error.panic
      | some colToGrade =>
        let lessons := dataRows lower f colToGrade lessonDay 1 (rows.drop 1)
        match parseMergedLessons lower f colToGrade lessonDay with
        | .error e => .error e
        | .ok mergedLessons => .ok (lessons ++ mergedLessons)

/-! ## Persistence and `ParseExcel` -/

/-- The persistence collaborator (gorm over PostgreSQL) by the one operation the
parser uses: `create table batch` is what `DB.Create(&lessons)` does when the
lessons table holds `table`, either an error (nothing inserted) or the rows as
inserted, with the primary keys the database filled in. -/
structure DB where
  create : List Lesson → List Lesson → Except Error (List Lesson)

/-- The persistence store: the batches committed so far, oldest first. -/
abbrev Store := List (List Lesson)

/-- Source `db.SaveLessons` (db/db.go 36-38): one `Create` of the whole slice.
Returns the slice as `Create` leaves it (gorm writes the primary keys back into
the elements, which the caller's slice shares), and the store afterwards; a
failed `Create` leaves the store as it was. -/
def db_SaveLessons (db : DB) (store : Store) (lessons : List Lesson) :
    Except Error (List Lesson) × Store :=
  match db.create store.flatten lessons with
  | .ok stored => (.ok stored, store ++ [stored])
  | .error e => (.error e, store)

/-- An opened workbook: its sheets in `GetSheetList` order. -/
structure Workbook where
  sheets : List Sheet

/-- The loop of source `ParseExcel` (parser.go 64-93) over the remaining sheets,
with the lessons collected so far and the store.  Each selected sheet is parsed,
saved with `db.SaveLessons` and only then appended to `lessons`. -/
def parseExcelLoop (lower : Char → Char) (db : DB) : List Sheet → List Lesson → Store →
    Except Error (List Lesson) × Store
  | [], lessons, store => (.ok lessons, store)
  | f :: rest, lessons, store =>
    if strings_HasPrefix f.name "12".toList then
      match parseSheet lower f with
      | .error Error.panic => (.error Error.panic, store)
      | .error e => (.error (Error.parsingSheet f.name e), store)
      | .ok sheetLessons =>
        match db_SaveLessons db store sheetLessons with
        | (.error e, store1) => (.error (Error.savingSheet f.name e), store1)
        | (.ok saved, store1) => parseExcelLoop lower db rest (lessons ++ saved) store1
    else parseExcelLoop lower db rest lessons store

/-- Source `ParseExcel` (parser.go 53-97); `opened` is the result of
`excelize.OpenFile(path)`. -/
def ParseExcel (lower : Char → Char) (db : DB) (opened : Except Error Workbook) (store : Store) :
    Except Error (List Lesson) × Store :=
  match opened with
  | .error e => (.error e, store)
  | .ok f => parseExcelLoop lower db f.sheets [] store

/-! ## Definitions used to state the properties -/

/-- A case table for the closed examples: the values of Go's `unicode.ToLower`
on Basic Latin, Latin-1, Cyrillic U+0400..U+042F, U+0130 and U+212A; the texts
of the examples are drawn from Basic Latin and Cyrillic.  No general statement
uses it. -/
def exampleToLower (c : Char) : Char :=
  let n := c.toNat
  if 0x41 ≤ n ∧ n ≤ 0x5A then Char.ofNat (n + 32)
  else if 0xC0 ≤ n ∧ n ≤ 0xDE ∧ n ≠ 0xD7 then Char.ofNat (n + 32)
  else if 0x400 ≤ n ∧ n ≤ 0x40F then Char.ofNat (n + 80)
  else if 0x410 ≤ n ∧ n ≤ 0x42F then Char.ofNat (n + 32)
  else if n = 0x130 then 'i'
  else if n = 0x212A then 'k'
  else c

/-- The time-range steps the two builders share (parser.go 172-182, 205-214 and
285-296, 321-332): the time cell split on `-` into exactly two parts, each
trimmed and read with `time.Parse("15:04", _)`. -/
def decodeTimeRange (timeCell : Str) : Option ((Nat × Nat) × (Nat × Nat)) :=
  match strings_Split timeCell '-' with
  | [p0, p1] =>
    match time_Parse_15_04 (strings_TrimSpace p0), time_Parse_15_04 (strings_TrimSpace p1) with
    | some s, some e => some (s, e)
    | _, _ => none
  | _ => none

/-- The lesson-text steps the two builders share (parser.go 166-169, 197-203,
232-237): name, group, teacher, room, and whether the marker was found; `none`
when the first line is blank. -/
def decodeLessonText (val : Str) : Option (Str × Str × Str × Str × Bool) :=
  let lines := strings_Split val '\n'
  let line0 := strings_TrimSpace (lines.getD 0 [])
  if line0 = [] then none
  else
    let teacher := strings_TrimSpace (lines.getD 1 [])
    let room := strings_TrimSpace (lines.getD 2 [])
    match strings_Index line0 marker with
    | some i => some (strings_TrimSpace (line0.take i), strings_TrimSpace (line0.drop i), teacher, room, true)
    | none => some (line0, [], teacher, room, false)

/-- The steps common to `parseRowLesson` and to the body of `parseMergedLessons`,
given the text of the time cell and the header entry of the column. -/
def assembleLesson (lower : Char → Char)
    (timeCell : Str) (gradeParts : Option (Str × Str)) (val lessonDay : Str) :
    Option Lesson :=
  match decodeLessonText val, decodeTimeRange timeCell, gradeParts with
  | some (name, group, teacher, room, sub), some (s, e), some (num, letter) =>
    match strconv_Atoi num with
    | some g =>
      some { ID := 0, Grade := g, GradeLetter := if sub then [] else letter,
             LessonDay := parseDayToIndex lower lessonDay,
             LessonStart := time_Date 2000 1 1 s.1 s.2 0 0,
             LessonEnd := time_Date 2000 1 1 e.1 e.2 0 0,
             LessonName := name, LessonTeacher := teacher, LessonClass := room,
             LessonGroup := group }
    | none => none
  | _, _, _ => none

/-- Two-digit decimal rendering of a number below 100. -/
def twoDigits (n : Nat) : Str :=
  [Char.ofNat (48 + n / 10), Char.ofNat (48 + n % 10)]

/-- The text `HH:MM` of hour `h` and minute `m`. -/
def clockText (h m : Nat) : Str := twoDigits h ++ ':' :: twoDigits m

/-- A strict `HH:MM` token in the words of the specification: two-digit hour
00-23, colon, two-digit minute 00-59. -/
def isStrictHHMM (s : Str) : Bool :=
  match s with
  | [a, b, c, d, e] =>
    isDigitRune a && isDigitRune b && c == ':' && isDigitRune d && isDigitRune e &&
      decide (digitVal a * 10 + digitVal b < 24) && decide (digitVal d * 10 + digitVal e < 60)
  | _ => false

/-- A token `H:MM` with a one-digit hour, colon, two-digit minute 00-59. -/
def isOneDigitHourMM (s : Str) : Bool :=
  match s with
  | [a, c, d, e] =>
    isDigitRune a && c == ':' && isDigitRune d && isDigitRune e &&
      decide (digitVal d * 10 + digitVal e < 60)
  | _ => false

/-- The recognized tokens of weekday `i` (1 = Monday .. 7 = Sunday): the token
table of the Day Resolver. -/
def weekdayTokens : Nat → List Str
  | 1 => ["понедельник".toList, "mon".toList]
  | 2 => ["вторник".toList, "tue".toList]
  | 3 => ["среда".toList, "wed".toList]
  | 4 => ["четверг".toList, "thu".toList]
  | 5 => ["пятница".toList, "fri".toList]
  | 6 => ["суббота".toList, "sat".toList]
  | 7 => ["воскресенье".toList, "sun".toList]
  | _ => []

/-- The text `s` contains one of the tokens of weekday `i` as a substring. -/
def mentionsDay (s : Str) (i : Nat) : Prop := ∃ tok ∈ weekdayTokens i, tok <:+: s

instance (s : Str) (i : Nat) : Decidable (mentionsDay s i) := by
  unfold mentionsDay; infer_instance

/-- The first line of a cell text: the text before the first line break. -/
def firstLine (cellValue : Str) : Str := cellValue.takeWhile (fun c => c != '\n')

/-- A sheet for the examples: the header row `Понедельник | Время | 11А | 12Б`
and one data row with the time cell `timeCell` in column B and the lesson
cell `lessonCell` in column C; the single-cell reads return the same texts. -/
def timedSheet (timeCell lessonCell : Str) : Sheet :=
  { name := "12 пн".toList
    cellA1 := .ok "Понедельник".toList
    rows := .ok [["Понедельник".toList, "Время".toList, "11А".toList, "12Б".toList],
                 [[], timeCell, lessonCell]]
    rawCell := fun address =>
      if address = "A1".toList then .ok "Понедельник".toList
      else if address = "B1".toList then .ok "Время".toList
      else if address = "B2".toList then .ok timeCell
      else if address = "C2".toList then .ok lessonCell
      else .ok []
    mergeCells := .ok [] }

/-- The grade header of the example sheets: C is 11А, D is 12Б. -/
def exampleHeader : GradeMap :=
  [("D".toList, ("12".toList, "Б".toList)), ("C".toList, ("11".toList, "А".toList))]

/-- A sheet for the examples with one merged range C2:C4 holding
"Math\nSmith"; the time cells of rows 2, 3 and 4 are `b2`, `b3`, `b4`. -/
def threeRowSheet (b2 b3 b4 : Str) : Sheet :=
  { name := "12 пн".toList
    cellA1 := .ok "Понедельник".toList
    rows := .ok [["Понедельник".toList, "Время".toList, "11А".toList, "12Б".toList],
                 [[], b2, "Math\nSmith".toList],
                 [[], b3],
                 [[], b4]]
    rawCell := fun address =>
      if address = "A1".toList then .ok "Понедельник".toList
      else if address = "B1".toList then .ok "Время".toList
      else if address = "B2".toList then .ok b2
      else if address = "B3".toList then .ok b3
      else if address = "B4".toList then .ok b4
      else if address = "C2".toList then .ok "Math\nSmith".toList
      else .ok []
    mergeCells := .ok [{ value := "Math\nSmith".toList, startAxis := "C2".toList,
                         endAxis := "C4".toList }] }

/-- A token `time.Parse("15:04", _)` accepts: hour of one or two digits with
value 0-23, colon, two-digit minute 00-59. -/
def isClockToken (s : Str) : Bool := isStrictHHMM s || isOneDigitHourMM s

/-- The time-cell text does not split on `-` into exactly two parts, or one of
its trimmed parts is not a strict `HH:MM` token. -/
def notTwoStrictTokens (timeCell : Str) : Prop :=
  (strings_Split timeCell '-').length ≠ 2 ∨
    ∃ p ∈ strings_Split timeCell '-', isStrictHHMM (strings_TrimSpace p) = false

/-- The time-cell text does not split on `-` into exactly two parts, or one of
its trimmed parts is not a token with an hour of one or two digits (0-23), a
colon and a two-digit minute (00-59). -/
def notTwoClockTokens (timeCell : Str) : Prop :=
  (strings_Split timeCell '-').length ≠ 2 ∨
    ∃ p ∈ strings_Split timeCell '-', isClockToken (strings_TrimSpace p) = false

/-- A database for the examples: `Create` rejects the empty slice and
otherwise inserts the batch, numbering the primary keys after the rows present. -/
def sequenceDB : DB :=
  { create := fun table batch =>
      if batch = [] then .error (Error.lib "empty slice found".toList)
      else .ok (batch.enum.map (fun p => { p.2 with ID := table.length + p.1 + 1 })) }

/-- A sheet for the examples on which every read fails. -/
def unreadableSheet : Sheet :=
  { name := "12 вт".toList
    cellA1 := .error (Error.lib "sheet 12 вт does not exist".toList)
    rows := .error (Error.lib "sheet 12 вт does not exist".toList)
    rawCell := fun _ => .error (Error.lib "sheet 12 вт does not exist".toList)
    mergeCells := .error (Error.lib "sheet 12 вт does not exist".toList) }

/-- A workbook for the examples: a readable timetable sheet with one lesson,
followed by a timetable sheet whose reads fail. -/
def partialWorkbook : Workbook :=
  { sheets := [timedSheet "09:00-09:45".toList "Math".toList, unreadableSheet] }

/-- What the row pass emits for the cell with 0-based column index `p.1` and
text `p.2` on the row with 0-based index `rowIndex`: nothing in columns A and B,
otherwise the lesson of `parseRowLesson` when it succeeds. -/
def rowCellLesson (lower : Char → Char)
    (f : Sheet) (colToGrade : GradeMap) (lessonDay : Str) (rowIndex : Nat)
    (p : Nat × Str) : Option Lesson :=
  if p.1 < 2 then none
  else
    match parseRowLesson lower f rowIndex (ColumnNumberToName (p.1 + 1)) p.2 colToGrade
        lessonDay with
    | (lesson, true) => some lesson
    | (_, false) => none

/-- The row pass in the words of the specification: the data rows (row index
1 and up) in increasing row order, within a row the cells in increasing column
order, one lesson per cell for which the single-cell builder succeeds. -/
def rowPass (lower : Char → Char)
    (f : Sheet) (colToGrade : GradeMap) (lessonDay : Str) (rows : List (List Str)) :
    List Lesson :=
  (rows.enum.drop 1).flatMap
    (fun r => r.2.enum.filterMap (rowCellLesson lower f colToGrade lessonDay r.1))

/-- The lessons of a result of `parseSheet`; none for an error. -/
def lessonsOf : Except Error (List Lesson) → List Lesson
  | .ok ls => ls
  | .error _ => []

/-- A lesson without the primary key the database assigns: the fields of the
Lesson of the specification. -/
def Lesson.content (l : Lesson) : Lesson := { l with ID := 0 }

/-- The lessons of the sheets whose name starts with "12", in workbook order. -/
def selectedLessons (lower : Char → Char) (sheets : List Sheet) : List Lesson :=
  (sheets.filter (fun f => strings_HasPrefix f.name "12".toList)).flatMap
    (fun f => lessonsOf (parseSheet lower f))

/-- A workbook for the examples: a sheet named "Лист1", which is not a
timetable sheet, and the timetable sheet "12 пн" with one lesson. -/
def mixedWorkbook : Workbook :=
  { sheets := [{ timedSheet "08:00-08:45".toList "Art".toList with name := "Лист1".toList },
               timedSheet "09:00-09:45".toList "Math".toList] }

/-- Source: the job `cron.StartJobs` registers (cron/scheduler.go 15-37), from
the call of `excel.ParseExcel` on: a failed parse is logged and ends the job; on
success the returned lessons are saved with `db.SaveLessons`, whose error is
only logged.  Returns the store the job leaves. -/
def excelParserJob (lower : Char → Char)
    (db : DB) (opened : Except Error Workbook) (store : Store) : Store :=
  match ParseExcel lower db opened store with
  | (.error _, store1) => store1
  | (.ok lessons, store1) => (db_SaveLessons db store1 lessons).2

/-- A database for the examples with a primary key, as gorm over PostgreSQL
treats it: the empty slice is rejected, a row whose `ID` is not 0 is inserted
under that key and rejected when the key is taken, a row whose `ID` is 0 gets a
key after the rows present. -/
def keyedDB : DB :=
  { create := fun table batch =>
      if batch = [] then .error (Error.lib "empty slice found".toList)
      else if batch.any (fun l => l.ID != 0 && table.any (fun r => r.ID == l.ID)) then
        .error (Error.lib "duplicate key value violates unique constraint".toList)
      else
        .ok (batch.enum.map (fun p =>
          if p.2.ID = 0 then { p.2 with ID := table.length + p.1 + 1 } else p.2)) }

/-- A workbook for the examples with two timetable sheets, "12 пн" and "12 вт",
of one lesson each. -/
def twoSheetWorkbook : Workbook :=
  { sheets := [timedSheet "09:00-09:45".toList "Math".toList,
               { timedSheet "10:00-10:45".toList "Art".toList with name := "12 вт".toList }] }

/-- A timetable sheet for the examples: header `Понедельник | Время | 11А | 12Б`,
four data rows with valid time cells, five ordinary lesson cells (C2, D2, C3,
D3, C4) and the merged range D4:D5 with the text "PE\nBrown", which the row
grid holds at D4, the start cell of the range. -/
def weekSheet : Sheet :=
  { name := "12 пн".toList
    cellA1 := .ok "Понедельник".toList
    rows := .ok [["Понедельник".toList, "Время".toList, "11А".toList, "12Б".toList],
                 [[], "08:00-08:45".toList, "Math\nSmith\n101".toList, "Physics\nJones".toList],
                 [[], "09:00-09:45".toList, "History".toList, "Chemistry".toList],
                 [[], "10:00-10:45".toList, "Art".toList, "PE\nBrown".toList],
                 [[], "11:00-11:45".toList]]
    rawCell := fun address =>
      if address = "B2".toList then .ok "08:00-08:45".toList
      else if address = "B3".toList then .ok "09:00-09:45".toList
      else if address = "B4".toList then .ok "10:00-10:45".toList
      else if address = "B5".toList then .ok "11:00-11:45".toList
      else .ok []
    mergeCells := .ok [{ value := "PE\nBrown".toList, startAxis := "D4".toList,
                         endAxis := "D5".toList }] }

/-- A timetable sheet for the examples with one grade column, C, whose header
text is `header`, and one lesson cell, C2 "Math", at 09:00-09:45. -/
def gradeSheet (header : Str) : Sheet :=
  { name := "12 пн".toList
    cellA1 := .ok "Понедельник".toList
    rows := .ok [["Понедельник".toList, "Время".toList, header],
                 [[], "09:00-09:45".toList, "Math".toList]]
    rawCell := fun address =>
      if address = "B2".toList then .ok "09:00-09:45".toList
      else if address = "C1".toList then .ok header
      else if address = "C2".toList then .ok "Math".toList
      else .ok []
    mergeCells := .ok [] }

/-- A well-formed data cell in the words of the specification: the cell with
0-based column index `p.1` and text `p.2` lies right of columns A and B, its
first line is not blank after trimming, and the grade header maps its column. -/
def wellFormedCell (m : GradeMap) (p : Nat × Str) : Bool :=
  decide (2 ≤ p.1) && (strings_TrimSpace (firstLine p.2) != []) &&
    (m.lookup (ColumnNumberToName (p.1 + 1))).isSome

/-- The number of well-formed cells of the data rows (row index 1 and up) of
the grid, the cell at 0-based row `r0` and column `c0` left out. -/
def otherWellFormedCells (m : GradeMap) (rows : List (List Str)) (r0 c0 : Nat) : Nat :=
  ((rows.enum.drop 1).map (fun r =>
    r.2.enum.countP (fun p => wellFormedCell m p && !(r.1 == r0 && p.1 == c0)))).sum

/-- The number of well-formed cells of the data rows (row index 1 and up) of
the grid. -/
def wellFormedCells (m : GradeMap) (rows : List (List Str)) : Nat :=
  ((rows.enum.drop 1).map (fun r => r.2.enum.countP (wellFormedCell m))).sum

/-- The example sheet `weekSheet` with cell C4 empty: four ordinary lesson
cells (C2, D2, C3, D3) and the merged range D4:D5 with the text "PE\nBrown" at
D4, so that the grid holds five well-formed cells, the start cell of the range
among them. -/
def fiveCellSheet : Sheet :=
  { weekSheet with
    rows := .ok [["Понедельник".toList, "Время".toList, "11А".toList, "12Б".toList],
                 [[], "08:00-08:45".toList, "Math\nSmith\n101".toList, "Physics\nJones".toList],
                 [[], "09:00-09:45".toList, "History".toList, "Chemistry".toList],
                 [[], "10:00-10:45".toList, [], "PE\nBrown".toList],
                 [[], "11:00-11:45".toList]] }

/-! ## Lemmas -/

section Lemmas

variable {lower : Char → Char}

/-! ### `strings.Split` -/

theorem strings_Split_ne_nil (s : Str) (sep : Char) : strings_Split s sep ≠ [] := by
  induction s with
  | nil => simp [strings_Split]
  | cons c cs ih =>
    unfold strings_Split
    split_ifs
    · simp
    · split <;> simp

theorem strings_Split_no_sep (s : Str) (sep : Char) (h : sep ∉ s) :
    strings_Split s sep = [s] := by
  induction s with
  | nil => rfl
  | cons c cs ih =>
    have hc : ¬ c = sep := fun e => h (by simp [e])
    have hcs : sep ∉ cs := fun e => h (by simp [e])
    rw [strings_Split, if_neg hc, ih hcs]

theorem strings_Split_append (a b : Str) (sep : Char) (h : sep ∉ a) :
    strings_Split (a ++ sep :: b) sep = a :: strings_Split b sep := by
  induction a with
  | nil => simp [strings_Split]
  | cons c cs ih =>
    have hc : ¬ c = sep := fun e => h (by simp [e])
    have hcs : sep ∉ cs := fun e => h (by simp [e])
    rw [List.cons_append, strings_Split, if_neg hc, ih hcs]

theorem strings_Split_intercalate (lines : List Str) (sep : Char) (hne : lines ≠ [])
    (h : ∀ ln ∈ lines, sep ∉ ln) :
    strings_Split ([sep].intercalate lines) sep = lines := by
  induction lines with
  | nil => exact absurd rfl hne
  | cons l ls ih =>
    cases ls with
    | nil =>
      simp only [List.intercalate, List.intersperse, List.flatten, List.append_nil]
      exact strings_Split_no_sep l sep (h l (by simp))
    | cons l2 ls2 =>
      have e : [sep].intercalate (l :: l2 :: ls2) = l ++ sep :: [sep].intercalate (l2 :: ls2) := by
        simp [List.intercalate, List.intersperse, List.flatten]
      rw [e, strings_Split_append l _ sep (h l (by simp)),
        ih (by simp) (fun ln hln => h ln (List.mem_cons_of_mem _ hln))]

/-! ### `strings.TrimSpace` -/

theorem dropWhile_append_of_all (p : Char → Bool) (ws rest : Str) (h : ∀ c ∈ ws, p c = true) :
    (ws ++ rest).dropWhile p = rest.dropWhile p := by
  induction ws with
  | nil => rfl
  | cons a t ih =>
    have ha : p a = true := h a (by simp)
    rw [List.cons_append, List.dropWhile_cons, if_pos ha]
    exact ih (fun c hc => h c (by simp [hc]))

theorem rdropWhile_append_of_all (p : Char → Bool) (l ws : Str) (h : ∀ c ∈ ws, p c = true) :
    (l ++ ws).rdropWhile p = l.rdropWhile p := by
  unfold List.rdropWhile
  rw [List.reverse_append, dropWhile_append_of_all p ws.reverse l.reverse (by simpa using h)]

theorem strings_TrimSpace_pad (ws1 ws2 t : Str) (c0 cl : Char) (mid : Str)
    (ht : t = c0 :: mid ++ [cl] ∨ (t = [c0] ∧ c0 = cl))
    (h1 : ∀ c ∈ ws1, unicode_IsSpace c = true) (h2 : ∀ c ∈ ws2, unicode_IsSpace c = true)
    (hc0 : unicode_IsSpace c0 = false) (hcl : unicode_IsSpace cl = false) :
    strings_TrimSpace (ws1 ++ t ++ ws2) = t := by
  unfold strings_TrimSpace
  rw [List.append_assoc, dropWhile_append_of_all _ ws1 _ h1]
  have hd : (t ++ ws2).dropWhile unicode_IsSpace = t ++ ws2 := by
    rcases ht with rfl | ⟨rfl, _⟩ <;> simp [List.dropWhile_cons, hc0]
  rw [hd, rdropWhile_append_of_all _ t ws2 h2]
  rcases ht with rfl | ⟨rfl, rfl⟩
  · exact List.rdropWhile_concat_neg _ _ _ (by simp [hcl])
  · exact List.rdropWhile_concat_neg _ [] _ (by simp [hc0])

/-! ### `strings.Index`, `strings.Contains` -/

theorem strings_Index_isSome_iff (s substr : Str) :
    (strings_Index s substr).isSome = true ↔ substr <:+: s := by
  induction s with
  | nil =>
    cases substr with
    | nil => simp [strings_Index]
    | cons a t => simp [strings_Index]
  | cons c cs ih =>
    unfold strings_Index
    by_cases hp : substr.isPrefixOf (c :: cs) = true
    · rw [if_pos hp]
      simp only [Option.isSome_some, true_iff]
      exact (List.isPrefixOf_iff_prefix.mp hp).isInfix
    · rw [if_neg hp]
      rw [Option.isSome_map', ih, List.infix_cons_iff]
      constructor
      · intro h; exact Or.inr h
      · rintro (h | h)
        · exact absurd (List.isPrefixOf_iff_prefix.mpr h) hp
        · exact h

theorem strings_Contains_iff (s substr : Str) :
    strings_Contains s substr = true ↔ substr <:+: s := by
  unfold strings_Contains
  exact strings_Index_isSome_iff s substr

theorem singleton_infix_iff_mem (s : Str) (c : Char) : [c] <:+: s ↔ c ∈ s := by
  constructor
  · rintro ⟨a, b, rfl⟩
    simp
  · intro h
    obtain ⟨a, b, rfl⟩ := List.append_of_mem h
    exact ⟨a, b, by simp⟩

theorem strings_Index_marker_none (s : Str) (c : Char) :
    strings_Index s [c] = none ↔ c ∉ s := by
  have h := strings_Index_isSome_iff s [c]
  rw [singleton_infix_iff_mem] at h
  constructor
  · intro hn hc
    have := h.mpr hc
    rw [hn] at this
    simp at this
  · intro hn
    cases hi : strings_Index s [c] with
    | none => rfl
    | some i =>
      exfalso
      apply hn
      apply h.mp
      rw [hi]; rfl

theorem strings_Index_char_split (pre post : Str) (c : Char) (hc : c ∉ pre) :
    strings_Index (pre ++ c :: post) [c] = some pre.length := by
  induction pre with
  | nil => simp [strings_Index, List.isPrefixOf]
  | cons a t ih =>
    have hac : ¬ c = a := fun h => hc (by simp [h])
    have ht : c ∉ t := fun h => hc (by simp [h])
    simp only [List.cons_append, strings_Index, List.isPrefixOf, List.length_cons]
    simp [hac, ih ht]

/-! ### `time.Parse` -/

theorem isDigitRune_colon : isDigitRune ':' = false := by decide

theorem isDigitRune_ofNat (d : Nat) (h : d < 10) :
    isDigitRune (Char.ofNat (48 + d)) = true ∧ digitVal (Char.ofNat (48 + d)) = d := by
  interval_cases d <;> decide

theorem digitVal_lt (c : Char) (h : isDigitRune c = true) : digitVal c < 10 := by
  simp only [isDigitRune, Bool.and_eq_true, decide_eq_true_eq] at h
  have h0 : '0'.toNat = 48 := rfl
  have h9 : '9'.toNat = 57 := rfl
  unfold digitVal
  omega

theorem time_Parse_isSome (s : Str) :
    (time_Parse_15_04 s).isSome = (isStrictHHMM s || isOneDigitHourMM s) := by
  have hcol := isDigitRune_colon
  rcases s with _ | ⟨a, _ | ⟨b, _ | ⟨c, _ | ⟨d, _ | ⟨e, _ | ⟨g, r⟩⟩⟩⟩⟩⟩
  · rfl
  · cases ha : isDigitRune a <;> simp [time_Parse_15_04, time_getnum, isStrictHHMM, isOneDigitHourMM, ha]
  · cases ha : isDigitRune a <;> cases hb : isDigitRune b <;>
      by_cases hbc : b = ':' <;>
      simp_all [time_Parse_15_04, time_getnum, isStrictHHMM, isOneDigitHourMM]
  · cases ha : isDigitRune a <;> cases hb : isDigitRune b <;> cases hc : isDigitRune c <;>
      by_cases hbc : b = ':' <;> by_cases hcc : c = ':' <;>
      simp_all [time_Parse_15_04, time_getnum, isStrictHHMM, isOneDigitHourMM]
  · cases ha : isDigitRune a <;> cases hb : isDigitRune b <;> cases hc : isDigitRune c <;>
      cases hd : isDigitRune d <;>
      by_cases hbc : b = ':' <;> by_cases hcc : c = ':' <;>
      simp_all [time_Parse_15_04, time_getnum, isStrictHHMM, isOneDigitHourMM]
    have := digitVal_lt a ha
    split_ifs <;> simp <;> omega
  · cases ha : isDigitRune a <;> cases hb : isDigitRune b <;> cases hc : isDigitRune c <;>
      cases hd : isDigitRune d <;> cases he : isDigitRune e <;>
      by_cases hbc : b = ':' <;> by_cases hcc : c = ':' <;>
      simp_all [time_Parse_15_04, time_getnum, isStrictHHMM, isOneDigitHourMM]
    split_ifs <;> simp <;> omega
  · cases ha : isDigitRune a <;> cases hb : isDigitRune b <;> cases hc : isDigitRune c <;>
      cases hd : isDigitRune d <;> cases he : isDigitRune e <;>
      by_cases hbc : b = ':' <;> by_cases hcc : c = ':' <;>
      simp_all [time_Parse_15_04, time_getnum, isStrictHHMM, isOneDigitHourMM]

theorem time_Parse_clockText (h m : Nat) (hh : h < 24) (hm : m < 60) :
    time_Parse_15_04 (clockText h m) = some (h, m) := by
  have a1 := isDigitRune_ofNat (h / 10) (by omega)
  have a2 := isDigitRune_ofNat (h % 10) (by omega)
  have a3 := isDigitRune_ofNat (m / 10) (by omega)
  have a4 := isDigitRune_ofNat (m % 10) (by omega)
  have e1 : h / 10 * 10 + h % 10 = h := by omega
  have e2 : m / 10 * 10 + m % 10 = m := by omega
  simp [clockText, twoDigits, time_Parse_15_04, time_getnum, a1.1, a2.1, a3.1, a4.1, a1.2, a2.2,
    a3.2, a4.2, e1, e2, hh, hm]

/-! ### The two builders through their common steps -/

theorem time_Parse_nil : time_Parse_15_04 [] = none := rfl

theorem parseRowLesson_eq (f : Sheet) (rowIndex : Nat) (colName cellValue : Str)
    (colToGrade : GradeMap) (lessonDay : Str) :
    parseRowLesson lower f rowIndex colName cellValue colToGrade lessonDay =
      match assembleLesson lower (f.rawCellText ("B".toList ++ strconv_Itoa (rowIndex + 1)))
          (colToGrade.lookup colName) cellValue lessonDay with
      | some l => (l, true)
      | none => (Lesson.zero, false) := by
  have hne := strings_Split_ne_nil cellValue '\n'
  unfold parseRowLesson assembleLesson decodeLessonText decodeTimeRange
  dsimp only
  generalize strings_Split cellValue '\n' = lines at hne
  generalize f.rawCellText _ = tc
  generalize strings_Split tc '-' = parts
  generalize List.lookup colName colToGrade = gp
  have hlen : lines.length ≠ 0 := by simpa using hne
  have ht : strings_TrimSpace [] = [] := rfl
  have h1 : (if 2 ≤ lines.length then strings_TrimSpace (lines.getD 1 []) else [])
      = strings_TrimSpace (lines.getD 1 []) := by
    split_ifs with h
    · rfl
    · rw [List.getD_eq_default _ _ (by omega)]; rfl
  have h2 : (if 3 ≤ lines.length then strings_TrimSpace (lines.getD 2 []) else [])
      = strings_TrimSpace (lines.getD 2 []) := by
    split_ifs with h
    · rfl
    · rw [List.getD_eq_default _ _ (by omega)]; rfl
  rw [h1, h2]
  generalize strings_TrimSpace (lines.getD 0 []) = line0
  generalize strings_TrimSpace (lines.getD 1 []) = teacher
  generalize strings_TrimSpace (lines.getD 2 []) = room
  generalize strings_Index line0 marker = idx
  by_cases h0 : line0 = []
  · simp [h0]
  · rcases parts with _ | ⟨p0, _ | ⟨p1, _ | ⟨p2, rest⟩⟩⟩
    · simp [h0, hlen]
    · simp [h0, hlen]
    · simp only [h0, hlen, List.length_cons, List.length_nil, if_true, false_or, if_false,
        List.getD_cons_zero, List.getD_cons_succ]
      have hs : strings_TrimSpace p0 = [] → time_Parse_15_04 (strings_TrimSpace p0) = none := by
        intro h; rw [h]; rfl
      have he : strings_TrimSpace p1 = [] → time_Parse_15_04 (strings_TrimSpace p1) = none := by
        intro h; rw [h]; rfl
      generalize strings_TrimSpace p0 = t0 at hs
      generalize strings_TrimSpace p1 = t1 at he
      generalize time_Parse_15_04 t0 = s at hs
      generalize time_Parse_15_04 t1 = e at he
      rcases gp with _ | ⟨num, letter⟩
      · by_cases hp0 : t0 = [] <;> by_cases hp1 : t1 = [] <;>
          rcases idx with _ | i <;> rcases s with _ | s <;> rcases e with _ | e <;>
          simp_all
      · by_cases hp0 : t0 = [] <;> by_cases hp1 : t1 = [] <;>
          rcases idx with _ | i <;> rcases s with _ | s <;> rcases e with _ | e <;>
          rcases hg : strconv_Atoi num with _ | g <;> simp_all
    · simp [h0, hlen]

theorem parseMergedLesson_eq (f : Sheet) (colToGrade : GradeMap) (lessonDay : Str)
    (mc : MergeCell) :
    parseMergedLesson lower f colToGrade lessonDay mc =
      if mc.value = [] then none
      else assembleLesson lower
        (f.rawCellText ("B".toList ++ strings_TrimLeftFunc mc.endAxis (fun r => !isDigitRune r)))
        (colToGrade.lookup (strings_TrimRightFunc mc.startAxis isDigitRune)) mc.value
        lessonDay := by
  have hne := strings_Split_ne_nil mc.value '\n'
  unfold parseMergedLesson assembleLesson decodeLessonText decodeTimeRange
  dsimp only
  by_cases hv : mc.value = []
  · simp [hv]
  rw [if_neg hv, if_neg hv]
  generalize strings_Split mc.value '\n' = lines at hne
  generalize f.rawCellText _ = tc
  generalize strings_Split tc '-' = parts
  generalize List.lookup _ colToGrade = gp
  have hlen : lines.length ≠ 0 := by simpa using hne
  have ht : strings_TrimSpace [] = [] := rfl
  have h1 : (if 2 ≤ lines.length then strings_TrimSpace (lines.getD 1 []) else [])
      = strings_TrimSpace (lines.getD 1 []) := by
    split_ifs with h
    · rfl
    · rw [List.getD_eq_default _ _ (by omega)]; rfl
  have h2 : (if 3 ≤ lines.length then strings_TrimSpace (lines.getD 2 []) else [])
      = strings_TrimSpace (lines.getD 2 []) := by
    split_ifs with h
    · rfl
    · rw [List.getD_eq_default _ _ (by omega)]; rfl
  rw [h1, h2]
  generalize strings_TrimSpace (lines.getD 0 []) = line0
  generalize strings_TrimSpace (lines.getD 1 []) = teacher
  generalize strings_TrimSpace (lines.getD 2 []) = room
  generalize strings_Index line0 marker = idx
  by_cases h0 : line0 = []
  · simp [h0]
  · rcases parts with _ | ⟨p0, _ | ⟨p1, _ | ⟨p2, rest⟩⟩⟩
    · simp [h0, hlen]
    · simp [h0, hlen]
    · simp only [h0, hlen, List.length_cons, List.length_nil, if_true, false_or, if_false,
        List.getD_cons_zero, List.getD_cons_succ]
      have hs : strings_TrimSpace p0 = [] → time_Parse_15_04 (strings_TrimSpace p0) = none := by
        intro h; rw [h]; rfl
      have he : strings_TrimSpace p1 = [] → time_Parse_15_04 (strings_TrimSpace p1) = none := by
        intro h; rw [h]; rfl
      generalize strings_TrimSpace p0 = t0 at hs
      generalize strings_TrimSpace p1 = t1 at he
      generalize time_Parse_15_04 t0 = s at hs
      generalize time_Parse_15_04 t1 = e at he
      rcases gp with _ | ⟨num, letter⟩
      · by_cases hp0 : t0 = [] <;> by_cases hp1 : t1 = [] <;>
          rcases idx with _ | i <;> rcases s with _ | s <;> rcases e with _ | e <;>
          simp_all
      · by_cases hp0 : t0 = [] <;> by_cases hp1 : t1 = [] <;>
          rcases idx with _ | i <;> rcases s with _ | s <;> rcases e with _ | e <;>
          rcases hg : strconv_Atoi num with _ | g <;> simp_all
    · simp [h0, hlen]

/-! ### `parseDayToIndex` as a chain of guards -/

theorem parseDayToIndex_eq (day : Str) :
    parseDayToIndex lower day =
      if mentionsDay (strings_ToLower lower (strings_TrimSpace day)) 1 then 1
      else if mentionsDay (strings_ToLower lower (strings_TrimSpace day)) 2 then 2
      else if mentionsDay (strings_ToLower lower (strings_TrimSpace day)) 3 then 3
      else if mentionsDay (strings_ToLower lower (strings_TrimSpace day)) 4 then 4
      else if mentionsDay (strings_ToLower lower (strings_TrimSpace day)) 5 then 5
      else if mentionsDay (strings_ToLower lower (strings_TrimSpace day)) 6 then 6
      else if mentionsDay (strings_ToLower lower (strings_TrimSpace day)) 7 then 7
      else 0 := by
  unfold parseDayToIndex
  simp only [mentionsDay, weekdayTokens, List.mem_cons, List.mem_singleton, exists_eq_or_imp,
    exists_eq_left, Bool.or_eq_true, strings_Contains_iff, List.not_mem_nil, false_and, exists_false, or_false]

theorem guard_chain_cases (p1 p2 p3 p4 p5 p6 p7 : Prop) [Decidable p1] [Decidable p2]
    [Decidable p3] [Decidable p4] [Decidable p5] [Decidable p6] [Decidable p7] (r : Int)
    (hr : r = if p1 then 1 else if p2 then 2 else if p3 then 3 else if p4 then 4
      else if p5 then 5 else if p6 then 6 else if p7 then 7 else 0) :
    (p1 ∧ r = 1) ∨
    (¬ p1 ∧ p2 ∧ r = 2) ∨
    (¬ p1 ∧ ¬ p2 ∧ p3 ∧ r = 3) ∨
    (¬ p1 ∧ ¬ p2 ∧ ¬ p3 ∧ p4 ∧ r = 4) ∨
    (¬ p1 ∧ ¬ p2 ∧ ¬ p3 ∧ ¬ p4 ∧ p5 ∧ r = 5) ∨
    (¬ p1 ∧ ¬ p2 ∧ ¬ p3 ∧ ¬ p4 ∧ ¬ p5 ∧ p6 ∧ r = 6) ∨
    (¬ p1 ∧ ¬ p2 ∧ ¬ p3 ∧ ¬ p4 ∧ ¬ p5 ∧ ¬ p6 ∧ p7 ∧ r = 7) ∨
    (¬ p1 ∧ ¬ p2 ∧ ¬ p3 ∧ ¬ p4 ∧ ¬ p5 ∧ ¬ p6 ∧ ¬ p7 ∧ r = 0) := by
  subst hr
  split_ifs <;> simp [*]

theorem parseDayToIndex_cases (day : Str) (m : Nat → Prop)
    (hm : m = mentionsDay (strings_ToLower lower (strings_TrimSpace day))) :
    (m 1 ∧ parseDayToIndex lower day = 1) ∨
    (¬ m 1 ∧ m 2 ∧ parseDayToIndex lower day = 2) ∨
    (¬ m 1 ∧ ¬ m 2 ∧ m 3 ∧ parseDayToIndex lower day = 3) ∨
    (¬ m 1 ∧ ¬ m 2 ∧ ¬ m 3 ∧ m 4 ∧ parseDayToIndex lower day = 4) ∨
    (¬ m 1 ∧ ¬ m 2 ∧ ¬ m 3 ∧ ¬ m 4 ∧ m 5 ∧ parseDayToIndex lower day = 5) ∨
    (¬ m 1 ∧ ¬ m 2 ∧ ¬ m 3 ∧ ¬ m 4 ∧ ¬ m 5 ∧ m 6 ∧ parseDayToIndex lower day = 6) ∨
    (¬ m 1 ∧ ¬ m 2 ∧ ¬ m 3 ∧ ¬ m 4 ∧ ¬ m 5 ∧ ¬ m 6 ∧ m 7 ∧ parseDayToIndex lower day = 7) ∨
    (¬ m 1 ∧ ¬ m 2 ∧ ¬ m 3 ∧ ¬ m 4 ∧ ¬ m 5 ∧ ¬ m 6 ∧ ¬ m 7 ∧ parseDayToIndex lower day = 0) := by
  subst hm
  exact guard_chain_cases _ _ _ _ _ _ _ _ (parseDayToIndex_eq day)

/-! ### Lesson text -/

theorem strings_Split_head (s : Str) (sep : Char) :
    (strings_Split s sep).getD 0 [] = s.takeWhile (fun c => c != sep) := by
  induction s with
  | nil => rfl
  | cons c cs ih =>
    rw [strings_Split]
    by_cases hc : c = sep
    · simp [hc]
    · rw [if_neg hc]
      have hne := strings_Split_ne_nil cs sep
      rcases hsp : strings_Split cs sep with _ | ⟨p, ps⟩
      · exact absurd hsp hne
      · rw [hsp] at ih
        simp only [List.getD_cons_zero] at ih
        simp [hc, ih]

theorem strings_Index_char_some (s : Str) (c : Char) (i : Nat)
    (h : strings_Index s [c] = some i) :
    ∃ pre post, s = pre ++ c :: post ∧ c ∉ pre ∧ i = pre.length := by
  induction s generalizing i with
  | nil => simp [strings_Index] at h
  | cons a t ih =>
    rw [strings_Index] at h
    by_cases hp : [c].isPrefixOf (a :: t) = true
    · rw [if_pos hp] at h
      have hca : c = a := by simpa [List.isPrefixOf] using hp
      refine ⟨[], t, by simp [hca], by simp, ?_⟩
      simpa using h.symm
    · rw [if_neg hp] at h
      have hca : ¬ c = a := by simpa [List.isPrefixOf] using hp
      rcases hi : strings_Index t [c] with _ | k
      · rw [hi] at h; simp at h
      · rw [hi] at h
        obtain ⟨pre, post, rfl, hpre, rfl⟩ := ih k hi
        refine ⟨a :: pre, post, by simp, ?_, ?_⟩
        · simp [hca, hpre]
        · simpa using h.symm

theorem strings_TrimSpace_cons_ne_nil (c : Char) (post : Str) (hc : unicode_IsSpace c = false) :
    strings_TrimSpace (c :: post) ≠ [] := by
  unfold strings_TrimSpace
  rw [List.dropWhile_cons, if_neg (by simp [hc])]
  intro h
  rw [List.rdropWhile_eq_nil_iff] at h
  have := h c (by simp)
  simp [hc] at this

theorem assembleLesson_some (timeCell : Str) (gradeParts : Option (Str × Str))
    (val lessonDay : Str) (l : Lesson)
    (h : assembleLesson lower timeCell gradeParts val lessonDay = some l) :
    ∃ name group teacher room sub s e num letter g,
      decodeLessonText val = some (name, group, teacher, room, sub) ∧
      decodeTimeRange timeCell = some (s, e) ∧
      gradeParts = some (num, letter) ∧
      strconv_Atoi num = some g ∧
      l = { ID := 0, Grade := g, GradeLetter := if sub then [] else letter,
            LessonDay := parseDayToIndex lower lessonDay,
            LessonStart := time_Date 2000 1 1 s.1 s.2 0 0,
            LessonEnd := time_Date 2000 1 1 e.1 e.2 0 0,
            LessonName := name, LessonTeacher := teacher, LessonClass := room,
            LessonGroup := group } := by
  unfold assembleLesson at h
  rcases hd : decodeLessonText val with _ | ⟨name, group, teacher, room, sub⟩
  · simp [hd] at h
  rcases ht : decodeTimeRange timeCell with _ | ⟨s, e⟩
  · simp [hd, ht] at h
  rcases gradeParts with _ | ⟨num, letter⟩
  · simp [hd, ht] at h
  rcases hg : strconv_Atoi num with _ | g
  · simp [hd, ht, hg] at h
  simp only [hd, ht, hg, Option.some.injEq] at h
  exact ⟨name, group, teacher, room, sub, s, e, num, letter, g, rfl, rfl, rfl, hg, h.symm⟩

theorem decodeLessonText_some (val name group teacher room : Str) (sub : Bool)
    (h : decodeLessonText val = some (name, group, teacher, room, sub)) :
    strings_TrimSpace (firstLine val) ≠ [] ∧
    teacher = strings_TrimSpace ((strings_Split val '\n').getD 1 []) ∧
    room = strings_TrimSpace ((strings_Split val '\n').getD 2 []) ∧
    ((sub = true ∧ ∃ pre post, strings_TrimSpace (firstLine val) = pre ++ '№' :: post ∧
        '№' ∉ pre ∧ name = strings_TrimSpace pre ∧ group = strings_TrimSpace ('№' :: post)) ∨
     (sub = false ∧ '№' ∉ strings_TrimSpace (firstLine val) ∧
        name = strings_TrimSpace (firstLine val) ∧ group = [])) := by
  unfold decodeLessonText at h
  dsimp only at h
  rw [strings_Split_head] at h
  unfold firstLine
  have hm : marker = ['№'] := rfl
  rw [hm] at h
  generalize strings_TrimSpace (List.takeWhile (fun c => c != '\n') val) = line0 at h ⊢
  by_cases h0 : line0 = []
  · simp [h0] at h
  rw [if_neg h0] at h
  rcases hi : strings_Index line0 ['№'] with _ | i
  · rw [hi] at h
    simp only [Option.some.injEq, Prod.mk.injEq] at h
    obtain ⟨rfl, rfl, rfl, rfl, rfl⟩ := h
    exact ⟨h0, rfl, rfl, Or.inr ⟨rfl, (strings_Index_marker_none _ _).mp hi, rfl, rfl⟩⟩
  · rw [hi] at h
    simp only [Option.some.injEq, Prod.mk.injEq] at h
    obtain ⟨rfl, rfl, rfl, rfl, rfl⟩ := h
    obtain ⟨pre, post, rfl, hpre, rfl⟩ := strings_Index_char_some _ _ _ hi
    refine ⟨h0, rfl, rfl, Or.inl ⟨rfl, pre, post, rfl, hpre, ?_, ?_⟩⟩
    · simp
    · simp

theorem decodeLessonText_marker (val pre post : Str)
    (hline : strings_TrimSpace (firstLine val) = pre ++ '№' :: post) (hpre : '№' ∉ pre) :
    decodeLessonText val =
      some (strings_TrimSpace pre, strings_TrimSpace ('№' :: post),
        strings_TrimSpace ((strings_Split val '\n').getD 1 []),
        strings_TrimSpace ((strings_Split val '\n').getD 2 []), true) := by
  unfold decodeLessonText
  dsimp only
  rw [strings_Split_head]
  unfold firstLine at hline
  have hm : marker = ['№'] := rfl
  rw [hm, hline, strings_Index_char_split pre post '№' hpre]
  simp

theorem parseRowLesson_emit (f : Sheet) (rowIndex : Nat) (colName cellValue : Str)
    (colToGrade : GradeMap) (lessonDay : Str) (l : Lesson)
    (h : parseRowLesson lower f rowIndex colName cellValue colToGrade lessonDay = (l, true)) :
    assembleLesson lower (f.rawCellText ("B".toList ++ strconv_Itoa (rowIndex + 1)))
      (colToGrade.lookup colName) cellValue lessonDay = some l := by
  rw [parseRowLesson_eq] at h
  split at h
  · next l1 h1 =>
    rw [h1]
    simp only [Prod.mk.injEq, and_true] at h
    rw [h]
  · simp at h

theorem parseMergedLesson_emit (f : Sheet) (colToGrade : GradeMap) (lessonDay : Str)
    (mc : MergeCell) (l : Lesson)
    (h : parseMergedLesson lower f colToGrade lessonDay mc = some l) :
    mc.value ≠ [] ∧
    assembleLesson lower
      (f.rawCellText ("B".toList ++ strings_TrimLeftFunc mc.endAxis (fun r => !isDigitRune r)))
      (colToGrade.lookup (strings_TrimRightFunc mc.startAxis isDigitRune)) mc.value
      lessonDay = some l := by
  rw [parseMergedLesson_eq] at h
  by_cases hv : mc.value = []
  · simp [hv] at h
  · rw [if_neg hv] at h
    exact ⟨hv, h⟩

theorem time_Parse_bounds (x : Str) (h m : Nat) (hp : time_Parse_15_04 x = some (h, m)) :
    h < 24 ∧ m < 60 := by
  unfold time_Parse_15_04 at hp
  split at hp
  · simp at hp
  · next hour value1 _ =>
    split_ifs at hp with h24
    split at hp
    · simp at hp
    · next c value2 =>
      split_ifs at hp with hc
      split at hp
      · simp at hp
      · next min value3 _ =>
        split_ifs at hp with h60 h3
        simp only [Option.some.injEq, Prod.mk.injEq] at hp
        omega

theorem decodeTimeRange_some (tc : Str) (s e : Nat × Nat)
    (h : decodeTimeRange tc = some (s, e)) :
    ∃ p0 p1, strings_Split tc '-' = [p0, p1] ∧
      time_Parse_15_04 (strings_TrimSpace p0) = some s ∧
      time_Parse_15_04 (strings_TrimSpace p1) = some e := by
  unfold decodeTimeRange at h
  split at h
  · next p0 p1 hs =>
    refine ⟨p0, p1, hs, ?_⟩
    split at h
    · next s1 e1 hs1 he1 =>
      simp only [Option.some.injEq, Prod.mk.injEq] at h
      rw [hs1, he1, h.1, h.2]
      exact ⟨rfl, rfl⟩
    · simp at h
  · simp at h

theorem decodeTimeRange_bounds (tc : Str) (s e : Nat × Nat)
    (h : decodeTimeRange tc = some (s, e)) :
    s.1 < 24 ∧ s.2 < 60 ∧ e.1 < 24 ∧ e.2 < 60 := by
  obtain ⟨p0, p1, -, h0, h1⟩ := decodeTimeRange_some tc s e h
  have b0 := time_Parse_bounds _ s.1 s.2 h0
  have b1 := time_Parse_bounds _ e.1 e.2 h1
  exact ⟨b0.1, b0.2, b1.1, b1.2⟩

theorem time_Date_Before (h1 m1 h2 m2 : Nat) :
    (time_Date 2000 1 1 h1 m1 0 0).Before (time_Date 2000 1 1 h2 m2 0 0) = true ↔
      h1 * 60 + m1 < h2 * 60 + m2 := by
  simp only [Time.Before, time_Date, Time.key]
  simp
  omega

theorem assembleLesson_times (tc : Str) (gp : Option (Str × Str)) (val lessonDay : Str)
    (l : Lesson) (h : assembleLesson lower tc gp val lessonDay = some l) :
    ∃ s e, decodeTimeRange tc = some (s, e) ∧
      s.1 < 24 ∧ s.2 < 60 ∧ e.1 < 24 ∧ e.2 < 60 ∧
      l.LessonStart = time_Date 2000 1 1 s.1 s.2 0 0 ∧
      l.LessonEnd = time_Date 2000 1 1 e.1 e.2 0 0 ∧
      (l.LessonStart.Before l.LessonEnd = true ↔ s.1 * 60 + s.2 < e.1 * 60 + e.2) := by
  obtain ⟨name, group, teacher, room, sub, s, e, num, letter, g, -, ht, -, -, rfl⟩ :=
    assembleLesson_some _ _ _ _ _ h
  obtain ⟨b1, b2, b3, b4⟩ := decodeTimeRange_bounds tc s e ht
  exact ⟨s, e, ht, b1, b2, b3, b4, rfl, rfl, time_Date_Before _ _ _ _⟩

theorem rdropWhile_of_none (p : Char → Bool) (l : Str) (h : ∀ c ∈ l, p c = false) :
    l.rdropWhile p = l := by
  rw [List.rdropWhile_eq_self_iff]
  intro hl
  rw [h _ (List.getLast_mem hl)]
  simp

theorem dropWhile_of_none (p : Char → Bool) (l : Str) (h : ∀ c ∈ l, p c = false) :
    l.dropWhile p = l := by
  cases l with
  | nil => rfl
  | cons a t => simp [List.dropWhile_cons, h a (by simp)]

theorem startCol_of_axis (col row : Str) (hcol : ∀ c ∈ col, isDigitRune c = false)
    (hrow : ∀ c ∈ row, isDigitRune c = true) :
    strings_TrimRightFunc (col ++ row) isDigitRune = col := by
  unfold strings_TrimRightFunc
  rw [rdropWhile_append_of_all _ _ _ hrow, rdropWhile_of_none _ _ hcol]

theorem endRow_of_axis (col row : Str) (hcol : ∀ c ∈ col, isDigitRune c = false)
    (hrow : ∀ c ∈ row, isDigitRune c = true) :
    strings_TrimLeftFunc (col ++ row) (fun r => !isDigitRune r) = row := by
  unfold strings_TrimLeftFunc
  rw [dropWhile_append_of_all _ _ _ (by simpa using hcol),
    dropWhile_of_none _ _ (by simpa using hrow)]

theorem decodeTimeRange_none (tc : Str) (h : notTwoClockTokens tc) : decodeTimeRange tc = none := by
  unfold decodeTimeRange
  unfold notTwoClockTokens at h
  split
  · next p0 p1 hs =>
    rw [hs] at h
    rcases h with h | ⟨p, hp, hbad⟩
    · simp at h
    · have hnone : time_Parse_15_04 (strings_TrimSpace p) = none := by
        have := time_Parse_isSome (strings_TrimSpace p)
        unfold isClockToken at hbad
        rw [hbad] at this
        cases hx : time_Parse_15_04 (strings_TrimSpace p) with
        | none => rfl
        | some v => rw [hx] at this; simp at this
      simp only [List.mem_cons, List.mem_singleton, List.not_mem_nil, or_false] at hp
      rcases hp with rfl | rfl
      · rw [hnone]
      · rw [hnone]
        split <;> simp_all
  · rfl

theorem assembleLesson_no_time (tc : Str) (gp : Option (Str × Str)) (val lessonDay : Str)
    (h : decodeTimeRange tc = none) : assembleLesson lower tc gp val lessonDay = none := by
  unfold assembleLesson
  rw [h]
  split <;> simp_all

theorem digitRune_props (d : Nat) (h : d < 10) :
    unicode_IsSpace (Char.ofNat (48 + d)) = false ∧ Char.ofNat (48 + d) ≠ '-' := by
  interval_cases d <;> decide

theorem isSpace_ne_dash (c : Char) (h : unicode_IsSpace c = true) : c ≠ '-' := by
  rintro rfl
  exact absurd h (by decide)

theorem clockText_shape (h m : Nat) :
    clockText h m = Char.ofNat (48 + h / 10) ::
      [Char.ofNat (48 + h % 10), ':', Char.ofNat (48 + m / 10)] ++ [Char.ofNat (48 + m % 10)] :=
  rfl

theorem dash_not_mem_padded (ws1 ws2 : Str) (h m : Nat) (hh : h < 24) (hm : m < 60)
    (h1 : ∀ c ∈ ws1, unicode_IsSpace c = true) (h2 : ∀ c ∈ ws2, unicode_IsSpace c = true) :
    '-' ∉ ws1 ++ clockText h m ++ ws2 := by
  have a1 := (digitRune_props (h / 10) (by omega)).2
  have a2 := (digitRune_props (h % 10) (by omega)).2
  have a3 := (digitRune_props (m / 10) (by omega)).2
  have a4 := (digitRune_props (m % 10) (by omega)).2
  intro hmem
  simp only [List.mem_append, clockText, twoDigits, List.mem_cons, List.mem_singleton,
    List.not_mem_nil, or_false] at hmem
  rcases hmem with (hm1 | hm2) | hm3
  · exact isSpace_ne_dash _ (h1 _ hm1) rfl
  · rcases hm2 with (e | e) | e | e | e
    · exact a1 e.symm
    · exact a2 e.symm
    · exact absurd e (by decide)
    · exact a3 e.symm
    · exact a4 e.symm
  · exact isSpace_ne_dash _ (h2 _ hm3) rfl

theorem strings_TrimSpace_clockText (ws1 ws2 : Str) (h m : Nat) (hh : h < 24) (_hm : m < 60)
    (h1 : ∀ c ∈ ws1, unicode_IsSpace c = true) (h2 : ∀ c ∈ ws2, unicode_IsSpace c = true) :
    strings_TrimSpace (ws1 ++ clockText h m ++ ws2) = clockText h m :=
  strings_TrimSpace_pad ws1 ws2 (clockText h m) _ _ _ (Or.inl (clockText_shape h m)) h1 h2
    (digitRune_props (h / 10) (by omega)).1 (digitRune_props (m % 10) (by omega)).1

theorem decodeTimeRange_padded (ws1 ws2 ws3 ws4 : Str) (h1 m1 h2 m2 : Nat)
    (hh1 : h1 < 24) (hm1 : m1 < 60) (hh2 : h2 < 24) (hm2 : m2 < 60)
    (w1 : ∀ c ∈ ws1, unicode_IsSpace c = true) (w2 : ∀ c ∈ ws2, unicode_IsSpace c = true)
    (w3 : ∀ c ∈ ws3, unicode_IsSpace c = true) (w4 : ∀ c ∈ ws4, unicode_IsSpace c = true) :
    decodeTimeRange (ws1 ++ clockText h1 m1 ++ ws2 ++ '-' :: (ws3 ++ clockText h2 m2 ++ ws4)) =
      some ((h1, m1), (h2, m2)) := by
  unfold decodeTimeRange
  rw [strings_Split_append _ _ '-' (dash_not_mem_padded ws1 ws2 h1 m1 hh1 hm1 w1 w2),
    strings_Split_no_sep _ '-' (dash_not_mem_padded ws3 ws4 h2 m2 hh2 hm2 w3 w4)]
  simp only [strings_TrimSpace_clockText _ _ _ _ hh1 hm1 w1 w2,
    strings_TrimSpace_clockText _ _ _ _ hh2 hm2 w3 w4,
    time_Parse_clockText _ _ hh1 hm1, time_Parse_clockText _ _ hh2 hm2]

theorem decodeLessonText_isSome (val : Str) (h : strings_TrimSpace (firstLine val) ≠ []) :
    ∃ name group teacher room sub,
      decodeLessonText val = some (name, group, teacher, room, sub) := by
  unfold decodeLessonText
  dsimp only
  rw [strings_Split_head]
  unfold firstLine at h
  rw [if_neg h]
  split
  · exact ⟨_, _, _, _, _, rfl⟩
  · exact ⟨_, _, _, _, _, rfl⟩

theorem columnLetters_zero (fuel : Nat) : columnLetters fuel 0 = [] := by
  cases fuel <;> rfl

theorem columnLetters_succ (fuel num : Nat) :
    columnLetters (fuel + 1) (num + 1) =
      columnLetters fuel (num / 26) ++ [Char.ofNat (num % 26 + 'A'.toNat)] := rfl

theorem columnLetters_fuel (f1 : Nat) : ∀ (f2 n : Nat), n ≤ f1 → n ≤ f2 →
    columnLetters f1 n = columnLetters f2 n := by
  induction f1 with
  | zero =>
    intro f2 n h1 _
    have : n = 0 := by omega
    subst this
    rw [columnLetters_zero, columnLetters_zero]
  | succ f1 ih =>
    intro f2 n h1 h2
    cases n with
    | zero => rw [columnLetters_zero, columnLetters_zero]
    | succ n =>
      cases f2 with
      | zero => omega
      | succ f2 =>
        rw [columnLetters_succ, columnLetters_succ,
          ih f2 (n / 26) (by have := Nat.div_le_self n 26; omega)
            (by have := Nat.div_le_self n 26; omega)]

theorem letter_inj (x y : Nat) (hx : x < 26) (hy : y < 26)
    (h : Char.ofNat (x + 'A'.toNat) = Char.ofNat (y + 'A'.toNat)) : x = y := by
  have hA : 'A'.toNat = 65 := rfl
  rw [hA] at h
  have e : ∀ z, z < 26 → (Char.ofNat (z + 65)).toNat = z + 65 := by
    intro z hz
    interval_cases z <;> rfl
  have := congrArg Char.toNat h
  rw [e x hx, e y hy] at this
  omega

theorem columnLetters_inj (fuel : Nat) : ∀ (a b : Nat), a ≤ fuel → b ≤ fuel →
    columnLetters fuel a = columnLetters fuel b → a = b := by
  induction fuel with
  | zero => intro a b ha hb _; omega
  | succ fuel ih =>
    intro a b ha hb h
    cases a with
    | zero =>
      cases b with
      | zero => rfl
      | succ b =>
        rw [columnLetters_zero, columnLetters_succ] at h
        simp at h
    | succ a =>
      cases b with
      | zero =>
        rw [columnLetters_zero, columnLetters_succ] at h
        simp at h
      | succ b =>
        rw [columnLetters_succ, columnLetters_succ] at h
        have h' := List.append_inj' h rfl
        have hq := ih (a / 26) (b / 26) (by have := Nat.div_le_self a 26; omega)
          (by have := Nat.div_le_self b 26; omega) h'.1
        have hr := letter_inj (a % 26) (b % 26) (Nat.mod_lt _ (by omega))
          (Nat.mod_lt _ (by omega)) (by simpa using h'.2)
        have := Nat.div_add_mod a 26
        have := Nat.div_add_mod b 26
        omega

theorem ColumnNumberToName_inj (a b : Nat) (ha1 : 1 ≤ a) (ha : a ≤ 16384) (hb1 : 1 ≤ b)
    (hb : b ≤ 16384) (h : ColumnNumberToName a = ColumnNumberToName b) : a = b := by
  unfold ColumnNumberToName at h
  rw [if_neg (by omega), if_neg (by omega)] at h
  rw [columnLetters_fuel a 16384 a (le_refl _) ha,
    columnLetters_fuel b 16384 b (le_refl _) hb] at h
  exact columnLetters_inj 16384 a b ha hb h

theorem ColumnNumberToName_eq_A (n : Nat) (h1 : 1 ≤ n) (h : n ≤ 16384) :
    ColumnNumberToName n = "A".toList ↔ n = 1 := by
  constructor
  · intro e
    exact ColumnNumberToName_inj n 1 h1 h (by omega) (by omega) (e.trans (by decide))
  · rintro rfl
    decide

theorem ColumnNumberToName_eq_B (n : Nat) (h1 : 1 ≤ n) (h : n ≤ 16384) :
    ColumnNumberToName n = "B".toList ↔ n = 2 := by
  constructor
  · intro e
    exact ColumnNumberToName_inj n 2 h1 h (by omega) (by omega) (e.trans (by decide))
  · rintro rfl
    decide

theorem headerCell_skip (m : GradeMap) (colName cellValue : Str)
    (h : colName = "A".toList ∨ colName = "B".toList ∨ cellValue = []) :
    headerCell m colName cellValue = some m := by
  unfold headerCell
  rw [if_pos h]

theorem headerCell_insert (m : GradeMap) (colName pre : Str) (last : Char)
    (hA : colName ≠ "A".toList) (hB : colName ≠ "B".toList) :
    headerCell m colName (pre ++ [last]) = some ((colName, (pre, [last])) :: m) := by
  unfold headerCell
  have hne : pre ++ [last] ≠ [] := by simp
  rw [if_neg (fun h => h.elim hA (fun h => h.elim hB hne))]
  simp

theorem headerCell_isSome (m : GradeMap) (colName cellValue : Str) :
    ∃ m1, headerCell m colName cellValue = some m1 := by
  by_cases h : colName = "A".toList ∨ colName = "B".toList ∨ cellValue = []
  · exact ⟨m, headerCell_skip m colName cellValue h⟩
  · have hne : cellValue ≠ [] := fun e => h (Or.inr (Or.inr e))
    obtain ⟨pre, last, rfl⟩ : ∃ pre last, cellValue = pre ++ [last] :=
      ⟨cellValue.dropLast, cellValue.getLast hne, (List.dropLast_append_getLast hne).symm⟩
    exact ⟨_, headerCell_insert m colName pre last (fun e => h (Or.inl e))
      (fun e => h (Or.inr (Or.inl e)))⟩

theorem headerRow_isSome (cells : List Str) : ∀ (m : GradeMap) (k : Nat),
    ∃ m1, headerRow m k cells = some m1 := by
  induction cells with
  | nil => intro m k; exact ⟨m, rfl⟩
  | cons c cs ih =>
    intro m k
    obtain ⟨m1, h1⟩ := headerCell_isSome m (ColumnNumberToName (k + 1)) c
    obtain ⟨m2, h2⟩ := ih m1 (k + 1)
    refine ⟨m2, ?_⟩
    rw [headerRow, h1]
    exact h2

theorem lookup_cons_ne (m : GradeMap) (key k : Str) (v : Str × Str) (h : key ≠ k) :
    List.lookup key ((k, v) :: m) = List.lookup key m := by
  rw [List.lookup_cons]
  have : (key == k) = false := by simpa using h
  rw [this]

theorem lookup_cons_self (m : GradeMap) (k : Str) (v : Str × Str) :
    List.lookup k ((k, v) :: m) = some v := by
  rw [List.lookup_cons]
  simp

theorem headerCell_lookup_ne (m m1 : GradeMap) (colName cellValue key : Str)
    (h : headerCell m colName cellValue = some m1) (hk : key ≠ colName) :
    List.lookup key m1 = List.lookup key m := by
  by_cases hs : colName = "A".toList ∨ colName = "B".toList ∨ cellValue = []
  · rw [headerCell_skip m colName cellValue hs] at h
    simp only [Option.some.injEq] at h
    rw [← h]
  · have hne : cellValue ≠ [] := fun e => hs (Or.inr (Or.inr e))
    obtain ⟨pre, last, rfl⟩ : ∃ pre last, cellValue = pre ++ [last] :=
      ⟨cellValue.dropLast, cellValue.getLast hne, (List.dropLast_append_getLast hne).symm⟩
    rw [headerCell_insert m colName pre last (fun e => hs (Or.inl e))
      (fun e => hs (Or.inr (Or.inl e)))] at h
    simp only [Option.some.injEq] at h
    rw [← h, lookup_cons_ne _ _ _ _ hk]

theorem headerRow_spec (cells : List Str) : ∀ (m : GradeMap) (k : Nat),
    k + cells.length ≤ 16384 →
    ∃ m1, headerRow m k cells = some m1 ∧
      (∀ j pre last, 2 ≤ k + j → cells.get? j = some (pre ++ [last]) →
        List.lookup (ColumnNumberToName (k + j + 1)) m1 = some (pre, [last])) ∧
      (∀ j, j < cells.length → (k + j < 2 ∨ cells.get? j = some []) →
        List.lookup (ColumnNumberToName (k + j + 1)) m1 =
          List.lookup (ColumnNumberToName (k + j + 1)) m) ∧
      (∀ key, (∀ j, j < cells.length → key ≠ ColumnNumberToName (k + j + 1)) →
        List.lookup key m1 = List.lookup key m) := by
  induction cells with
  | nil =>
    intro m k _
    refine ⟨m, rfl, ?_, ?_, ?_⟩
    · intro j pre last _ h; simp at h
    · intro j h; simp at h
    · intro key _; rfl
  | cons c cs ih =>
    intro m k hk
    simp only [List.length_cons] at hk
    obtain ⟨m0, h0⟩ := headerCell_isSome m (ColumnNumberToName (k + 1)) c
    obtain ⟨m1, h1, hA, hB, hC⟩ := ih m0 (k + 1) (by omega)
    have hdist : ∀ j, j < cs.length →
        ColumnNumberToName (k + 1) ≠ ColumnNumberToName (k + 1 + j + 1) := by
      intro j hj e
      have := ColumnNumberToName_inj _ _ (by omega) (by omega) (by omega) (by omega) e
      omega
    have hhead : List.lookup (ColumnNumberToName (k + 1)) m1 =
        List.lookup (ColumnNumberToName (k + 1)) m0 := hC _ hdist
    refine ⟨m1, by rw [headerRow, h0]; exact h1, ?_, ?_, ?_⟩
    · intro j pre last hj hget
      cases j with
      | zero =>
        simp only [List.get?_cons_zero, Option.some.injEq] at hget
        subst hget
        have hnA : ColumnNumberToName (k + 1) ≠ "A".toList := by
          rw [Ne, ColumnNumberToName_eq_A _ (by omega) (by omega)]; omega
        have hnB : ColumnNumberToName (k + 1) ≠ "B".toList := by
          rw [Ne, ColumnNumberToName_eq_B _ (by omega) (by omega)]; omega
        rw [headerCell_insert m _ pre last hnA hnB] at h0
        simp only [Option.some.injEq] at h0
        rw [Nat.add_zero, hhead, ← h0, lookup_cons_self]
      | succ j =>
        simp only [List.get?_cons_succ] at hget
        have := hA j pre last (by omega) hget
        rw [show k + (j + 1) + 1 = k + 1 + j + 1 by omega]
        exact this
    · intro j hj hor
      cases j with
      | zero =>
        have hskip : ColumnNumberToName (k + 1) = "A".toList ∨
            ColumnNumberToName (k + 1) = "B".toList ∨ c = [] := by
          rcases hor with h | h
          · have hk2 : k = 0 ∨ k = 1 := by omega
            rcases hk2 with rfl | rfl
            · exact Or.inl (by decide)
            · exact Or.inr (Or.inl (by decide))
          · simp only [List.get?_cons_zero, Option.some.injEq] at h
            exact Or.inr (Or.inr h)
        rw [headerCell_skip m _ c hskip] at h0
        simp only [Option.some.injEq] at h0
        rw [Nat.add_zero, hhead, ← h0]
      | succ j =>
        simp only [List.length_cons, Nat.add_lt_add_iff_right] at hj
        simp only [List.get?_cons_succ] at hor
        have e : k + (j + 1) + 1 = k + 1 + j + 1 := by omega
        rw [e]
        rw [hB j hj (by rcases hor with h | h; exact Or.inl (by omega); exact Or.inr h)]
        exact headerCell_lookup_ne m m0 _ c _ h0 (fun e => hdist j hj e.symm)
    · intro key hkey
      rw [hC key (fun j hj => by
        have := hkey (j + 1) (by simp only [List.length_cons]; omega)
        rw [show k + (j + 1) + 1 = k + 1 + j + 1 by omega] at this
        exact this)]
      exact headerCell_lookup_ne m m0 _ c _ h0 (by
        have := hkey 0 (by simp)
        simpa using this)

theorem ColumnNumberToName_AB (j : Nat) :
    (ColumnNumberToName (j + 1) = "A".toList ∨ ColumnNumberToName (j + 1) = "B".toList) ↔
      j < 2 := by
  by_cases h : j + 1 ≤ 16384
  · rw [ColumnNumberToName_eq_A _ (by omega) h, ColumnNumberToName_eq_B _ (by omega) h]
    omega
  · have e : ColumnNumberToName (j + 1) = [] := by
      unfold ColumnNumberToName
      rw [if_pos (by omega)]
    rw [e]
    constructor
    · rintro (h1 | h1) <;> exact absurd h1 (by decide)
    · intro h2; omega

theorem dataRow_eq (f : Sheet) (colToGrade : GradeMap) (lessonDay : Str) (rowIndex : Nat)
    (cells : List Str) : ∀ k : Nat,
    dataRow lower f colToGrade lessonDay rowIndex k cells =
      (cells.enumFrom k).filterMap (rowCellLesson lower f colToGrade lessonDay rowIndex) := by
  induction cells with
  | nil => intro k; rfl
  | cons c cs ih =>
    intro k
    rw [dataRow, List.enumFrom_cons, List.filterMap_cons, ih (k + 1)]
    unfold rowCellLesson
    by_cases h : k < 2
    · rw [if_pos ((ColumnNumberToName_AB k).mpr h)]
      simp [h]
    · rw [if_neg (fun e => h ((ColumnNumberToName_AB k).mp e))]
      simp only [h, if_false]
      rcases hp : parseRowLesson lower f rowIndex (ColumnNumberToName (k + 1)) c colToGrade lessonDay
        with ⟨l, b⟩
      cases b <;> simp

theorem dataRows_eq (f : Sheet) (colToGrade : GradeMap) (lessonDay : Str)
    (rows : List (List Str)) : ∀ k : Nat,
    dataRows lower f colToGrade lessonDay k rows =
      (rows.enumFrom k).flatMap
        (fun r => r.2.enum.filterMap (rowCellLesson lower f colToGrade lessonDay r.1)) := by
  induction rows with
  | nil => intro k; rfl
  | cons r rs ih =>
    intro k
    rw [dataRows, List.enumFrom_cons, List.flatMap_cons, ih (k + 1), dataRow_eq]
    rfl

theorem dataRows_rowPass (f : Sheet) (colToGrade : GradeMap) (lessonDay : Str)
    (rows : List (List Str)) :
    dataRows lower f colToGrade lessonDay 1 (rows.drop 1) =
      rowPass lower f colToGrade lessonDay rows := by
  rw [dataRows_eq]
  unfold rowPass
  cases rows with
  | nil => rfl
  | cons r rs => simp [List.enum, List.enumFrom_cons]

theorem gradeHeader_isSome (rows : List (List Str)) : ∃ m, gradeHeader rows = some m := by
  cases rows with
  | nil => exact ⟨[], rfl⟩
  | cons header rest => exact headerRow_isSome header [] 0

theorem parseSheet_ok (f : Sheet) (day : Str) (rows : List (List Str)) (mcs : List MergeCell)
    (m : GradeMap) (h1 : f.cellA1 = .ok day) (h2 : f.rows = .ok rows)
    (h3 : f.mergeCells = .ok mcs) (hm : gradeHeader rows = some m) :
    parseSheet lower f =
      .ok (rowPass lower f m day rows ++ mcs.filterMap (parseMergedLesson lower f m day)) := by
  unfold parseSheet
  rw [h1, h2]
  simp only [hm, parseMergedLessons, h3, dataRows_rowPass]

theorem parseSheet_ok_inv (f : Sheet) (ls : List Lesson) (h : parseSheet lower f = .ok ls) :
    ∃ day rows mcs m, f.cellA1 = .ok day ∧ f.rows = .ok rows ∧ f.mergeCells = .ok mcs ∧
      gradeHeader rows = some m ∧
      ls = rowPass lower f m day rows ++ mcs.filterMap (parseMergedLesson lower f m day) := by
  rcases h1 : f.cellA1 with e | day
  · simp [parseSheet, h1] at h
  rcases h2 : f.rows with e | rows
  · simp [parseSheet, h1, h2] at h
  obtain ⟨m, hm⟩ := gradeHeader_isSome rows
  rcases h3 : f.mergeCells with e | mcs
  · simp [parseSheet, h1, h2, hm, parseMergedLessons, h3] at h
  rw [parseSheet_ok f day rows mcs m h1 h2 h3 hm] at h
  simp only [Except.ok.injEq] at h
  exact ⟨day, rows, mcs, m, rfl, rfl, rfl, hm, h.symm⟩

theorem parseSheet_error_iff (f : Sheet) :
    (∃ e, parseSheet lower f = .error e) ↔
      ((∃ e, f.cellA1 = .error e) ∨ (∃ e, f.rows = .error e) ∨
        (∃ e, f.mergeCells = .error e)) := by
  rcases h1 : f.cellA1 with e | day
  · simp [parseSheet, h1]
  rcases h2 : f.rows with e | rows
  · simp [parseSheet, h1, h2]
  obtain ⟨m, hm⟩ := gradeHeader_isSome rows
  rcases h3 : f.mergeCells with e | mcs
  · simp [parseSheet, h1, h2, hm, parseMergedLessons, h3]
  · simp [parseSheet_ok f day rows mcs m h1 h2 h3 hm]

theorem mem_rowPass (f : Sheet) (m : GradeMap) (day : Str) (rows : List (List Str))
    (l : Lesson) (h : l ∈ rowPass lower f m day rows) :
    ∃ rowIndex colName cellValue,
      parseRowLesson lower f rowIndex colName cellValue m day = (l, true) := by
  unfold rowPass at h
  rw [List.mem_flatMap] at h
  obtain ⟨⟨i, row⟩, -, hl⟩ := h
  rw [List.mem_filterMap] at hl
  obtain ⟨⟨j, cell⟩, -, hcell⟩ := hl
  unfold rowCellLesson at hcell
  dsimp only at hcell
  split_ifs at hcell
  split at hcell
  · next l1 hp =>
    simp only [Option.some.injEq] at hcell
    subst hcell
    exact ⟨i, _, cell, hp⟩
  · simp at hcell

theorem parseSheet_mem (f : Sheet) (day : Str) (ls : List Lesson) (l : Lesson)
    (h1 : f.cellA1 = .ok day) (h : parseSheet lower f = .ok ls) (hl : l ∈ ls) :
    ∃ tc gp val, assembleLesson lower tc gp val day = some l := by
  obtain ⟨day', rows, mcs, m, h1', -, -, -, rfl⟩ := parseSheet_ok_inv f ls h
  rw [h1] at h1'
  simp only [Except.ok.injEq] at h1'
  subst h1'
  rw [List.mem_append] at hl
  rcases hl with hl | hl
  · obtain ⟨i, c, v, hp⟩ := mem_rowPass f m day rows l hl
    exact ⟨_, _, _, parseRowLesson_emit _ _ _ _ _ _ _ hp⟩
  · rw [List.mem_filterMap] at hl
    obtain ⟨mc, -, hmc⟩ := hl
    exact ⟨_, _, _, (parseMergedLesson_emit _ _ _ _ _ hmc).2⟩

theorem decodeTimeRange_nil : decodeTimeRange [] = none := by decide

theorem rowPass_no_time (f : Sheet) (m : GradeMap) (day : Str) (rows : List (List Str))
    (h : ∀ address, f.rawCellText address = []) : rowPass lower f m day rows = [] := by
  rw [List.eq_nil_iff_forall_not_mem]
  intro l hl
  obtain ⟨i, c, v, hp⟩ := mem_rowPass f m day rows l hl
  have := parseRowLesson_emit _ _ _ _ _ _ _ hp
  rw [h, assembleLesson_no_time _ _ _ _ decodeTimeRange_nil] at this
  simp at this

theorem length_flatMap_sum {α β : Type} (l : List α) (g : α → List β) :
    (l.flatMap g).length = (l.map (fun a => (g a).length)).sum := by
  induction l with
  | nil => rfl
  | cons a t ih => simp [List.flatMap_cons, ih]

theorem parseSheet_content (f : Sheet) (ls : List Lesson) (h : parseSheet lower f = .ok ls) :
    ls.map Lesson.content = ls := by
  obtain ⟨day, rows, mcs, m, h1, -, -, -, -⟩ := parseSheet_ok_inv f ls h
  conv_rhs => rw [← List.map_id ls]
  apply List.map_congr_left
  intro l hl
  obtain ⟨tc, gp, val, ha⟩ := parseSheet_mem f day ls l h1 h hl
  obtain ⟨name, group, teacher, room, sub, s, e, num, letter, g, -, -, -, -, rfl⟩ :=
    assembleLesson_some _ _ _ _ _ ha
  rfl

theorem selectedLessons_cons_pos (f : Sheet) (rest : List Sheet)
    (h : strings_HasPrefix f.name "12".toList = true) :
    selectedLessons lower (f :: rest) =
      lessonsOf (parseSheet lower f) ++ selectedLessons lower rest := by
  unfold selectedLessons
  rw [List.filter_cons, if_pos h, List.flatMap_cons]

theorem selectedLessons_cons_neg (f : Sheet) (rest : List Sheet)
    (h : ¬ strings_HasPrefix f.name "12".toList = true) :
    selectedLessons lower (f :: rest) = selectedLessons lower rest := by
  unfold selectedLessons
  rw [List.filter_cons, if_neg h]

theorem parseExcelLoop_ok (db : DB) (sheets : List Sheet) :
    ∀ (acc : List Lesson) (store : Store),
    (∀ f ∈ sheets, strings_HasPrefix f.name "12".toList = true →
      ∃ ls, parseSheet lower f = .ok ls) →
    (∀ f ∈ sheets, strings_HasPrefix f.name "12".toList = true →
      ∀ table, ∃ stored, db.create table (lessonsOf (parseSheet lower f)) = .ok stored ∧
        stored.map Lesson.content = (lessonsOf (parseSheet lower f)).map Lesson.content) →
    ∃ ls, (parseExcelLoop lower db sheets acc store).1 = .ok (acc ++ ls) ∧
      ls.map Lesson.content = selectedLessons lower sheets := by
  induction sheets with
  | nil =>
    intro acc store _ _
    exact ⟨[], by simp [parseExcelLoop], rfl⟩
  | cons f rest ih =>
    intro acc store hparse hsave
    have hparse' : ∀ g ∈ rest, strings_HasPrefix g.name "12".toList = true →
        ∃ ls, parseSheet lower g = .ok ls := fun g hg => hparse g (List.mem_cons_of_mem _ hg)
    have hsave' : ∀ g ∈ rest, strings_HasPrefix g.name "12".toList = true →
        ∀ table, ∃ stored, db.create table (lessonsOf (parseSheet lower g)) = .ok stored ∧
          stored.map Lesson.content = (lessonsOf (parseSheet lower g)).map Lesson.content :=
      fun g hg => hsave g (List.mem_cons_of_mem _ hg)
    by_cases hp : strings_HasPrefix f.name "12".toList = true
    · obtain ⟨sl, hsl⟩ := hparse f (List.mem_cons_self _ _) hp
      obtain ⟨stored, hst, hcontent⟩ := hsave f (List.mem_cons_self _ _) hp store.flatten
      rw [hsl] at hst hcontent
      simp only [lessonsOf] at hst hcontent
      obtain ⟨ls, hls, hmap⟩ := ih (acc ++ stored) (store ++ [stored]) hparse' hsave'
      refine ⟨stored ++ ls, ?_, ?_⟩
      · rw [parseExcelLoop, if_pos hp, hsl]
        simp only [db_SaveLessons, hst]
        rw [hls, List.append_assoc]
      · rw [List.map_append, hcontent, hmap, parseSheet_content f sl hsl,
          selectedLessons_cons_pos f rest hp, hsl]
        rfl
    · obtain ⟨ls, hls, hmap⟩ := ih acc store hparse' hsave'
      refine ⟨ls, ?_, ?_⟩
      · rw [parseExcelLoop, if_neg hp]
        exact hls
      · rw [hmap, selectedLessons_cons_neg f rest hp]

theorem parseExcelLoop_no_match (db : DB) (sheets : List Sheet) (acc : List Lesson)
    (store : Store) (h : ∀ f ∈ sheets, strings_HasPrefix f.name "12".toList = false) :
    parseExcelLoop lower db sheets acc store = (.ok acc, store) := by
  induction sheets with
  | nil => rfl
  | cons f rest ih =>
    rw [parseExcelLoop, if_neg (by rw [h f (List.mem_cons_self _ _)]; simp)]
    exact ih (fun g hg => h g (List.mem_cons_of_mem _ hg))

theorem isDigitRune_digitChar (d : Nat) (h : d < 10) : isDigitRune (Nat.digitChar d) = true := by
  interval_cases d <;> decide

theorem toDigitsCore_digits (fuel : Nat) : ∀ (n : Nat) (ds : List Char),
    (∀ c ∈ ds, isDigitRune c = true) →
    ∀ c ∈ Nat.toDigitsCore 10 fuel n ds, isDigitRune c = true := by
  induction fuel with
  | zero => intro n ds h; simpa [Nat.toDigitsCore] using h
  | succ fuel ih =>
    intro n ds h
    have hd : ∀ c ∈ Nat.digitChar (n % 10) :: ds, isDigitRune c = true := by
      intro c hc
      rcases List.mem_cons.mp hc with rfl | hc
      · exact isDigitRune_digitChar _ (Nat.mod_lt _ (by omega))
      · exact h c hc
    unfold Nat.toDigitsCore
    dsimp only
    split_ifs
    · exact hd
    · exact ih _ _ hd

theorem strconv_Itoa_digits (n : Nat) : ∀ c ∈ strconv_Itoa n, isDigitRune c = true := by
  unfold strconv_Itoa Nat.repr Nat.toDigits
  exact toDigitsCore_digits _ _ _ (by simp)

theorem assembleLesson_blank (tc : Str) (gp : Option (Str × Str)) (day : Str) :
    assembleLesson lower tc gp [] day = none := by
  unfold assembleLesson
  have : decodeLessonText [] = none := by decide
  rw [this]

theorem strconv_Atoi_range (s : Str) (g : Int) (h : strconv_Atoi s = some g) :
    -(2 : Int) ^ 63 ≤ g ∧ g ≤ (2 : Int) ^ 63 - 1 := by
  unfold strconv_Atoi at h
  split at h
  · simp at h
  · next c rest =>
    dsimp only at h
    split_ifs at h
    all_goals
      split at h
      · simp at h
      · split_ifs at h with h2
        simp only [Option.some.injEq] at h
        rw [← h]
        exact h2

theorem assembleLesson_grade (tc : Str) (gp : Option (Str × Str)) (val day : Str) (l : Lesson)
    (h : assembleLesson lower tc gp val day = some l) :
    ∃ num letter, gp = some (num, letter) ∧ strconv_Atoi num = some l.Grade ∧
      -(2 : Int) ^ 63 ≤ l.Grade ∧ l.Grade ≤ (2 : Int) ^ 63 - 1 := by
  obtain ⟨name, group, teacher, room, sub, s, e, num, letter, g, -, -, hg, hn, rfl⟩ :=
    assembleLesson_some _ _ _ _ _ h
  exact ⟨num, letter, hg, hn, strconv_Atoi_range num g hn⟩

theorem assembleLesson_no_grade (tc val day num letter : Str)
    (h : strconv_Atoi num = none) :
    assembleLesson lower tc (some (num, letter)) val day = none := by
  unfold assembleLesson
  split
  · next hgp =>
    simp only [Option.some.injEq, Prod.mk.injEq] at hgp
    rw [← hgp.1, h]
  · rfl

/-! ### Counting the lessons of a sheet -/

theorem sum_enumFrom_at {α : Type} (c : Nat) (F : Nat × α → Nat) (l : List α) :
    ∀ k : Nat, (∀ p : Nat × α, p.1 ≠ c → F p = 0) →
    ((l.enumFrom k).map F).sum =
      if k ≤ c then (match l.get? (c - k) with | some v => F (c, v) | none => 0) else 0 := by
  induction l with
  | nil => intro k _; simp
  | cons a t ih =>
    intro k hF
    rw [List.enumFrom_cons, List.map_cons, List.sum_cons, ih (k + 1) hF]
    rcases Nat.lt_trichotomy k c with h | h | h
    · rw [hF (k, a) (by simp; omega), if_pos (by omega), if_pos (by omega)]
      obtain ⟨d, hd⟩ : ∃ d, c - k = d + 1 := ⟨c - k - 1, by omega⟩
      rw [hd, List.get?_cons_succ, show c - (k + 1) = d by omega]
      simp
    · subst h
      rw [if_neg (by omega), if_pos (le_refl _)]
      simp
    · rw [hF (k, a) (by simp; omega), if_neg (by omega), if_neg (by omega)]

theorem countP_eq_sum_indicator {α : Type} (p : α → Bool) (l : List α) :
    l.countP p = (l.map (fun x => if p x then 1 else 0)).sum := by
  induction l with
  | nil => rfl
  | cons a t ih =>
    rw [List.countP_cons, ih, List.map_cons, List.sum_cons]
    omega

theorem countP_split {α : Type} (p s : α → Bool) (l : List α) :
    l.countP p = l.countP (fun x => p x && !s x) + l.countP (fun x => p x && s x) := by
  induction l with
  | nil => rfl
  | cons a t ih =>
    simp only [List.countP_cons, ih]
    cases p a <;> cases s a <;> simp <;> omega

theorem sum_map_add_nat {α : Type} (g h : α → Nat) (l : List α) :
    (l.map (fun x => g x + h x)).sum = (l.map g).sum + (l.map h).sum := by
  induction l with
  | nil => rfl
  | cons a t ih => simp only [List.map_cons, List.sum_cons, ih]; omega

theorem enum_drop_one {α : Type} (l : List α) : l.enum.drop 1 = (l.drop 1).enumFrom 1 := by
  cases l with
  | nil => rfl
  | cons a t => simp [List.enum, List.enumFrom_cons]


theorem mem_of_lookup (col : Str) (v : Str × Str) (m : GradeMap)
    (h : m.lookup col = some v) : (col, v) ∈ m := by
  induction m with
  | nil => simp at h
  | cons e rest ih =>
    obtain ⟨k, w⟩ := e
    rw [List.lookup_cons] at h
    by_cases hk : col = k
    · subst hk
      simp at h
      subst h
      exact List.mem_cons_self _ _
    · have : (col == k) = false := by simpa using hk
      rw [this] at h
      exact List.mem_cons_of_mem _ (ih h)

theorem letter_not_digit (x : Nat) (hx : x < 26) :
    isDigitRune (Char.ofNat (x + 'A'.toNat)) = false := by
  interval_cases x <;> rfl

theorem columnLetters_not_digit (fuel : Nat) : ∀ num : Nat,
    ∀ c ∈ columnLetters fuel num, isDigitRune c = false := by
  induction fuel with
  | zero => intro num c hc; simp [columnLetters] at hc
  | succ fuel ih =>
    intro num c hc
    cases num with
    | zero => simp [columnLetters] at hc
    | succ num =>
      rw [columnLetters_succ, List.mem_append, List.mem_singleton] at hc
      rcases hc with hc | rfl
      · exact ih _ c hc
      · exact letter_not_digit _ (Nat.mod_lt _ (by omega))

theorem ColumnNumberToName_not_digit (n : Nat) :
    ∀ c ∈ ColumnNumberToName n, isDigitRune c = false := by
  unfold ColumnNumberToName
  split_ifs
  · intro c hc; simp at hc
  · exact columnLetters_not_digit n n

theorem decodeLessonText_isSome_eq (val : Str) :
    (decodeLessonText val).isSome = (strings_TrimSpace (firstLine val) != []) := by
  by_cases h : strings_TrimSpace (firstLine val) = []
  · have e : decodeLessonText val = none := by
      unfold decodeLessonText
      dsimp only
      rw [strings_Split_head]
      unfold firstLine at h
      rw [if_pos h]
    rw [e, h]
    rfl
  · obtain ⟨name, group, teacher, room, sub, e⟩ := decodeLessonText_isSome val h
    rw [e]
    simp [h]

theorem assembleLesson_isSome (timeCell : Str) (gradeParts : Option (Str × Str))
    (val lessonDay : Str) :
    (assembleLesson lower timeCell gradeParts val lessonDay).isSome =
      ((decodeLessonText val).isSome && (decodeTimeRange timeCell).isSome &&
        (match gradeParts with
          | some gp => (strconv_Atoi gp.1).isSome
          | none => false)) := by
  unfold assembleLesson
  rcases decodeLessonText val with _ | ⟨name, group, teacher, room, sub⟩
  · rfl
  rcases decodeTimeRange timeCell with _ | ⟨s, e⟩
  · rfl
  rcases gradeParts with _ | ⟨num, letter⟩
  · rfl
  dsimp only
  rcases strconv_Atoi num with _ | g
  · rfl
  · rfl

theorem rowCellLesson_isSome (f : Sheet) (m : GradeMap) (day : Str) (i : Nat) (p : Nat × Str)
    (ht : (decodeTimeRange (f.rawCellText ("B".toList ++ strconv_Itoa (i + 1)))).isSome = true)
    (hgrade : ∀ col num letter, m.lookup col = some (num, letter) →
      (strconv_Atoi num).isSome = true) :
    (rowCellLesson lower f m day i p).isSome = wellFormedCell m p := by
  unfold rowCellLesson wellFormedCell
  by_cases h : p.1 < 2
  · rw [if_pos h]
    have : decide (2 ≤ p.1) = false := by simp; omega
    rw [this]
    rfl
  · rw [if_neg h, parseRowLesson_eq]
    have hd : decide (2 ≤ p.1) = true := by simp; omega
    have ha := @assembleLesson_isSome lower
      (f.rawCellText ("B".toList ++ strconv_Itoa (i + 1)))
      (m.lookup (ColumnNumberToName (p.1 + 1))) p.2 day
    rw [ht, decodeLessonText_isSome_eq] at ha
    rw [hd]
    rcases hl : m.lookup (ColumnNumberToName (p.1 + 1)) with _ | ⟨num, letter⟩
    · rw [hl] at ha
      rcases hs : assembleLesson lower (f.rawCellText ("B".toList ++ strconv_Itoa (i + 1)))
        none p.2 day with _ | l
      · simp
      · rw [hs] at ha; simp at ha
    · rw [hl] at ha
      have hg := hgrade _ num letter hl
      dsimp only at ha
      rw [hg] at ha
      rcases hs : assembleLesson lower (f.rawCellText ("B".toList ++ strconv_Itoa (i + 1)))
        (some (num, letter)) p.2 day with _ | l
      · rw [hs] at ha
        simp at ha ⊢
        simpa using ha
      · rw [hs] at ha
        simp at ha ⊢
        simpa using ha

theorem rowPass_length (f : Sheet) (m : GradeMap) (day : Str) (rows : List (List Str))
    (hgrade : ∀ col num letter, m.lookup col = some (num, letter) →
      (strconv_Atoi num).isSome = true)
    (htime : ∀ i, 1 ≤ i → i < rows.length →
      (decodeTimeRange (f.rawCellText ("B".toList ++ strconv_Itoa (i + 1)))).isSome = true) :
    (rowPass lower f m day rows).length = wellFormedCells m rows := by
  unfold rowPass wellFormedCells
  rw [length_flatMap_sum]
  congr 1
  apply List.map_congr_left
  rintro ⟨i, row⟩ hr
  rw [enum_drop_one] at hr
  have hb := List.mem_enumFrom hr
  have hlen : i < rows.length := by
    have := hb.2.1
    rw [List.length_drop] at this
    omega
  dsimp only
  rw [List.length_filterMap_eq_countP]
  congr 1
  funext p
  exact rowCellLesson_isSome f m day i p (htime i hb.1 hlen) hgrade

theorem wellFormedCells_split (m : GradeMap) (rows : List (List Str)) (r0 c0 : Nat)
    (val : Str) (hr0 : 1 ≤ r0) (hgrid : (rows.getD r0 []).get? c0 = some val)
    (hval : wellFormedCell m (c0, val) = true) :
    wellFormedCells m rows = otherWellFormedCells m rows r0 c0 + 1 := by
  unfold wellFormedCells otherWellFormedCells
  have hsplit : ∀ r : Nat × List Str,
      r.2.enum.countP (wellFormedCell m) =
        r.2.enum.countP (fun p => wellFormedCell m p && !(r.1 == r0 && p.1 == c0)) +
        r.2.enum.countP (fun p => wellFormedCell m p && (r.1 == r0 && p.1 == c0)) :=
    fun r => countP_split _ _ _
  rw [List.map_congr_left (fun r _ => hsplit r), sum_map_add_nat]
  congr 1
  rw [enum_drop_one, sum_enumFrom_at r0]
  · rw [if_pos hr0]
    obtain ⟨row0, hrow0, hcell⟩ :
        ∃ row0, rows.get? r0 = some row0 ∧ row0.get? c0 = some val := by
      rcases hg : rows.get? r0 with _ | row0
      · have : rows.getD r0 [] = [] := by
          rw [List.getD_eq_getElem?_getD, ← List.get?_eq_getElem?, hg]; rfl
        rw [this] at hgrid
        simp at hgrid
      · refine ⟨row0, rfl, ?_⟩
        have : rows.getD r0 [] = row0 := by
          rw [List.getD_eq_getElem?_getD, ← List.get?_eq_getElem?, hg]; rfl
        rw [this] at hgrid
        exact hgrid
    have hd : (rows.drop 1).get? (r0 - 1) = some row0 := by
      rw [List.get?_eq_getElem?, List.getElem?_drop, show 1 + (r0 - 1) = r0 by omega,
        ← List.get?_eq_getElem?]
      exact hrow0
    rw [hd]
    dsimp only
    rw [countP_eq_sum_indicator]
    unfold List.enum
    rw [sum_enumFrom_at c0]
    · rw [if_pos (Nat.zero_le _), Nat.sub_zero, hcell]
      simp [hval]
    · intro p hp
      have : (p.1 == c0) = false := by simpa using hp
      simp [this]
  · intro r hr
    have : (r.1 == r0) = false := by simpa using hr
    simp [this]

theorem parseExcel_single_sheet (db : DB) (f : Sheet) (store : Store) (sl : List Lesson)
    (hname : strings_HasPrefix f.name "12".toList = true)
    (hps : parseSheet lower f = .ok sl)
    (hdb : ∀ table, ∃ stored, db.create table (lessonsOf (parseSheet lower f)) = .ok stored ∧
      stored.length = (lessonsOf (parseSheet lower f)).length) :
    ∃ ls, (ParseExcel lower db (.ok { sheets := [f] }) store).1 = .ok ls ∧
      ls.length = sl.length := by
  obtain ⟨stored, hst, hlen⟩ := hdb store.flatten
  rw [hps] at hst hlen
  simp only [lessonsOf] at hst hlen
  refine ⟨stored, ?_, hlen⟩
  simp only [ParseExcel, parseExcelLoop, hname, if_true, hps, db_SaveLessons, hst,
    List.nil_append]

theorem mergedRange_isSome (f : Sheet) (m : GradeMap) (day val : Str) (r0 c0 c1 : Nat)
    (hgrade : ∀ col num letter, m.lookup col = some (num, letter) →
      (strconv_Atoi num).isSome = true)
    (ht : (decodeTimeRange (f.rawCellText ("B".toList ++ strconv_Itoa (r0 + 2)))).isSome = true)
    (hval : wellFormedCell m (c0, val) = true) :
    (parseMergedLesson lower f m day
      { value := val, startAxis := ColumnNumberToName (c0 + 1) ++ strconv_Itoa (r0 + 1),
        endAxis := ColumnNumberToName (c1 + 1) ++ strconv_Itoa (r0 + 2) }).isSome = true := by
  rw [parseMergedLesson_eq]
  dsimp only
  rw [startCol_of_axis _ _ (ColumnNumberToName_not_digit _) (strconv_Itoa_digits _),
    endRow_of_axis _ _ (ColumnNumberToName_not_digit _) (strconv_Itoa_digits _)]
  unfold wellFormedCell at hval
  simp only [Bool.and_eq_true, decide_eq_true_eq] at hval
  obtain ⟨⟨-, hline⟩, hlook⟩ := hval
  have hv : val ≠ [] := by
    rintro rfl
    revert hline
    decide
  rw [if_neg hv, assembleLesson_isSome, ht, decodeLessonText_isSome_eq, hline]
  obtain ⟨⟨num, letter⟩, hl⟩ := Option.isSome_iff_exists.mp hlook
  rw [hl]
  exact hgrade _ num letter hl

end Lemmas

/-! ## Claims -/

/-- C1, evaluated at a workbook with two sheets named with the prefix, the first
readable (one lesson), the second failing at the A1 read: `ParseExcel` returns
the wrapped error, and the store, empty before, holds the batch of the first
sheet. -/
theorem C1_partial_commit :
    (parseSheet exampleToLower (timedSheet "09:00-09:45".toList "Math".toList)).toOption.map List.length = some 1 ∧
    parseSheet exampleToLower unreadableSheet = .error (Error.lib "sheet 12 вт does not exist".toList) ∧
    (ParseExcel exampleToLower sequenceDB (.ok partialWorkbook) []).1 =
      .error (Error.parsingSheet "12 вт".toList (Error.lib "sheet 12 вт does not exist".toList)) ∧
    (ParseExcel exampleToLower sequenceDB (.ok partialWorkbook) []).2 =
      [[{ ID := 1, Grade := 11, GradeLetter := "А".toList, LessonDay := 1,
          LessonStart := time_Date 2000 1 1 9 0 0 0, LessonEnd := time_Date 2000 1 1 9 45 0 0,
          LessonName := "Math".toList, LessonTeacher := [], LessonClass := [],
          LessonGroup := [] }]] ∧
    (ParseExcel exampleToLower sequenceDB (.ok partialWorkbook) []).2 ≠ [] := by
  refine ⟨by decide, rfl, rfl, by decide, by decide⟩

/-- C2 fails as stated: with the time cell "10:00-09:00" the single-cell
builder emits a lesson whose start (10:00) is not before its end (09:00). -/
theorem C2_counterexample :
    (parseRowLesson exampleToLower (timedSheet "10:00-09:00".toList "Math".toList) 1 "C".toList "Math".toList
        exampleHeader "Понедельник".toList).2 = true ∧
    (parseRowLesson exampleToLower (timedSheet "10:00-09:00".toList "Math".toList) 1 "C".toList "Math".toList
        exampleHeader "Понедельник".toList).1.LessonStart = time_Date 2000 1 1 10 0 0 0 ∧
    (parseRowLesson exampleToLower (timedSheet "10:00-09:00".toList "Math".toList) 1 "C".toList "Math".toList
        exampleHeader "Понедельник".toList).1.LessonEnd = time_Date 2000 1 1 9 0 0 0 ∧
    ((parseRowLesson exampleToLower (timedSheet "10:00-09:00".toList "Math".toList) 1 "C".toList "Math".toList
        exampleHeader "Понедельник".toList).1.LessonStart.Before
      (parseRowLesson exampleToLower (timedSheet "10:00-09:00".toList "Math".toList) 1 "C".toList "Math".toList
        exampleHeader "Понедельник".toList).1.LessonEnd) = false := by
  decide

/-- C2, amended. Every lesson emitted by either builder has its start and its
end on 2000-01-01 at the hour and minute decoded from the first and the second
token of the time cell (hour below 24, minute below 60); the two are not
compared: the start is before the end exactly when the first token denotes the
earlier time of day. -/
theorem C2_times_as_decoded (lower : Char → Char)
    (f : Sheet) (rowIndex : Nat) (colName cellValue : Str)
    (colToGrade : GradeMap) (lessonDay : Str) (mc : MergeCell) :
    (∀ l, parseRowLesson lower f rowIndex colName cellValue colToGrade lessonDay = (l, true) →
      ∃ s e, decodeTimeRange (f.rawCellText ("B".toList ++ strconv_Itoa (rowIndex + 1)))
          = some (s, e) ∧
        s.1 < 24 ∧ s.2 < 60 ∧ e.1 < 24 ∧ e.2 < 60 ∧
        l.LessonStart = time_Date 2000 1 1 s.1 s.2 0 0 ∧
        l.LessonEnd = time_Date 2000 1 1 e.1 e.2 0 0 ∧
        (l.LessonStart.Before l.LessonEnd = true ↔ s.1 * 60 + s.2 < e.1 * 60 + e.2)) ∧
    (∀ l, parseMergedLesson lower f colToGrade lessonDay mc = some l →
      ∃ s e, decodeTimeRange (f.rawCellText
          ("B".toList ++ strings_TrimLeftFunc mc.endAxis (fun r => !isDigitRune r)))
          = some (s, e) ∧
        s.1 < 24 ∧ s.2 < 60 ∧ e.1 < 24 ∧ e.2 < 60 ∧
        l.LessonStart = time_Date 2000 1 1 s.1 s.2 0 0 ∧
        l.LessonEnd = time_Date 2000 1 1 e.1 e.2 0 0 ∧
        (l.LessonStart.Before l.LessonEnd = true ↔ s.1 * 60 + s.2 < e.1 * 60 + e.2)) :=
  ⟨fun l h => assembleLesson_times _ _ _ _ l (parseRowLesson_emit _ _ _ _ _ _ _ h),
    fun l h => assembleLesson_times _ _ _ _ l (parseMergedLesson_emit _ _ _ _ _ h).2⟩

/-- C2 amended, at the time cell "10:00-09:00". -/
theorem C2_times_as_decoded_witness :
    ∃ s e, decodeTimeRange ((timedSheet "10:00-09:00".toList "Math".toList).rawCellText
          ("B".toList ++ strconv_Itoa (1 + 1))) = some (s, e) ∧
        s.1 < 24 ∧ s.2 < 60 ∧ e.1 < 24 ∧ e.2 < 60 ∧
        (parseRowLesson exampleToLower (timedSheet "10:00-09:00".toList "Math".toList) 1 "C".toList
          "Math".toList exampleHeader "Понедельник".toList).1.LessonStart
            = time_Date 2000 1 1 s.1 s.2 0 0 ∧
        (parseRowLesson exampleToLower (timedSheet "10:00-09:00".toList "Math".toList) 1 "C".toList
          "Math".toList exampleHeader "Понедельник".toList).1.LessonEnd
            = time_Date 2000 1 1 e.1 e.2 0 0 ∧
        ((parseRowLesson exampleToLower (timedSheet "10:00-09:00".toList "Math".toList) 1 "C".toList
          "Math".toList exampleHeader "Понедельник".toList).1.LessonStart.Before
          (parseRowLesson exampleToLower (timedSheet "10:00-09:00".toList "Math".toList) 1 "C".toList
          "Math".toList exampleHeader "Понедельник".toList).1.LessonEnd = true ↔
            s.1 * 60 + s.2 < e.1 * 60 + e.2) :=
  (C2_times_as_decoded exampleToLower (timedSheet "10:00-09:00".toList "Math".toList) 1 "C".toList
    "Math".toList exampleHeader "Понедельник".toList ⟨[], [], []⟩).1 _ (by decide)

/-- C3. Every lesson emitted by `parseRowLesson` or by the merged-range builder
has an empty `GradeLetter` whenever its `LessonGroup` is non-empty, and its
`LessonGroup` is non-empty exactly when the trimmed first line of the cell text
contains the marker "№". -/
theorem C3_group_clears_letter (lower : Char → Char)
    (f : Sheet) (rowIndex : Nat) (colName cellValue : Str)
    (colToGrade : GradeMap) (lessonDay : Str) (mc : MergeCell) :
    (∀ l, parseRowLesson lower f rowIndex colName cellValue colToGrade lessonDay = (l, true) →
      (l.LessonGroup ≠ [] → l.GradeLetter = []) ∧
      (l.LessonGroup ≠ [] ↔ '№' ∈ strings_TrimSpace (firstLine cellValue))) ∧
    (∀ l, parseMergedLesson lower f colToGrade lessonDay mc = some l →
      (l.LessonGroup ≠ [] → l.GradeLetter = []) ∧
      (l.LessonGroup ≠ [] ↔ '№' ∈ strings_TrimSpace (firstLine mc.value))) := by
  have key : ∀ (tc : Str) (gp : Option (Str × Str)) (val : Str) (l : Lesson),
      assembleLesson lower tc gp val lessonDay = some l →
      (l.LessonGroup ≠ [] → l.GradeLetter = []) ∧
      (l.LessonGroup ≠ [] ↔ '№' ∈ strings_TrimSpace (firstLine val)) := by
    intro tc gp val l h
    obtain ⟨name, group, teacher, room, sub, s, e, num, letter, g, hd, -, -, -, rfl⟩ :=
      assembleLesson_some _ _ _ _ _ h
    obtain ⟨-, -, -, hc | hc⟩ := decodeLessonText_some _ _ _ _ _ _ hd
    · obtain ⟨rfl, pre, post, hline, -, -, rfl⟩ := hc
      have hne : strings_TrimSpace ('№' :: post) ≠ [] :=
        strings_TrimSpace_cons_ne_nil _ _ (by decide)
      simp [hne, hline]
    · obtain ⟨rfl, hnot, -, rfl⟩ := hc
      simp [hnot]
  exact ⟨fun l h => key _ _ _ l (parseRowLesson_emit _ _ _ _ _ _ _ h),
    fun l h => key _ _ _ l (parseMergedLesson_emit _ _ _ _ _ h).2⟩

/-- C3 at a concrete input: the cell "Math№2\nSmith\nRoom 4" in column C (11А)
is emitted with a non-empty group and an empty grade letter. -/
theorem C3_group_clears_letter_witness :
    parseRowLesson exampleToLower (timedSheet "09:00-09:45".toList "Math№2\nSmith\nRoom 4".toList) 1 "C".toList
        "Math№2\nSmith\nRoom 4".toList exampleHeader "Понедельник".toList =
      ((parseRowLesson exampleToLower (timedSheet "09:00-09:45".toList "Math№2\nSmith\nRoom 4".toList) 1
        "C".toList "Math№2\nSmith\nRoom 4".toList exampleHeader "Понедельник".toList).1, true) ∧
    (parseRowLesson exampleToLower (timedSheet "09:00-09:45".toList "Math№2\nSmith\nRoom 4".toList) 1 "C".toList
        "Math№2\nSmith\nRoom 4".toList exampleHeader "Понедельник".toList).1.LessonGroup ≠ [] ∧
    (parseRowLesson exampleToLower (timedSheet "09:00-09:45".toList "Math№2\nSmith\nRoom 4".toList) 1 "C".toList
        "Math№2\nSmith\nRoom 4".toList exampleHeader "Понедельник".toList).1.GradeLetter = [] :=
  ⟨by decide, by decide,
    ((C3_group_clears_letter exampleToLower (timedSheet "09:00-09:45".toList "Math№2\nSmith\nRoom 4".toList) 1
      "C".toList "Math№2\nSmith\nRoom 4".toList exampleHeader "Понедельник".toList
      ⟨[], [], []⟩).1 _ (by decide)).1 (by decide)⟩

/-- C4 fails as stated: the lesson cell "\nMath" is not blank, its column is
mapped to the integer grade 11 and the time cell is "09:00-09:45", yet
`parseRowLesson` emits no lesson, because the first line of the cell is blank. -/
theorem C4_counterexample :
    strings_TrimSpace "\nMath".toList ≠ [] ∧
    (timedSheet "09:00-09:45".toList "\nMath".toList).rawCellText
      ("B".toList ++ strconv_Itoa (1 + 1)) = "09:00-09:45".toList ∧
    List.lookup "C".toList exampleHeader = some ("11".toList, "А".toList) ∧
    strconv_Atoi "11".toList = some 11 ∧
    parseRowLesson exampleToLower (timedSheet "09:00-09:45".toList "\nMath".toList) 1
      "C".toList "\nMath".toList exampleHeader "Понедельник".toList = (Lesson.zero, false) := by
  refine ⟨by decide, by decide, by decide, by decide, by decide⟩

/-- C4, amended. For times `h1:m1` earlier than `h2:m2` written with two-digit
fields and any white space around the two tokens, a lesson cell whose first
line is not blank after trimming, in a column mapped to an integer grade,
makes `parseRowLesson` emit a lesson starting at
2000-01-01 `h1:m1`:00 UTC and ending at 2000-01-01 `h2:m2`:00 UTC. -/
theorem C4_valid_range_emitted (lower : Char → Char)
    (f : Sheet) (rowIndex : Nat) (colName cellValue : Str)
    (colToGrade : GradeMap) (lessonDay : Str) (h1 m1 h2 m2 : Nat) (ws1 ws2 ws3 ws4 : Str)
    (num letter : Str) (g : Int)
    (hh1 : h1 < 24) (hm1 : m1 < 60) (hh2 : h2 < 24) (hm2 : m2 < 60)
    (_hlt : h1 * 60 + m1 < h2 * 60 + m2)
    (w1 : ∀ c ∈ ws1, unicode_IsSpace c = true) (w2 : ∀ c ∈ ws2, unicode_IsSpace c = true)
    (w3 : ∀ c ∈ ws3, unicode_IsSpace c = true) (w4 : ∀ c ∈ ws4, unicode_IsSpace c = true)
    (htime : f.rawCellText ("B".toList ++ strconv_Itoa (rowIndex + 1)) =
      ws1 ++ clockText h1 m1 ++ ws2 ++ '-' :: (ws3 ++ clockText h2 m2 ++ ws4))
    (hcell : strings_TrimSpace (firstLine cellValue) ≠ [])
    (hcol : colToGrade.lookup colName = some (num, letter))
    (hnum : strconv_Atoi num = some g) :
    ∃ l, parseRowLesson lower f rowIndex colName cellValue colToGrade lessonDay = (l, true) ∧
      l.LessonStart = time_Date 2000 1 1 h1 m1 0 0 ∧
      l.LessonEnd = time_Date 2000 1 1 h2 m2 0 0 := by
  have htc := htime
  obtain ⟨name, group, teacher, room, sub, hd⟩ := decodeLessonText_isSome cellValue hcell
  rw [parseRowLesson_eq, htc, hcol]
  unfold assembleLesson
  rw [hd, decodeTimeRange_padded ws1 ws2 ws3 ws4 h1 m1 h2 m2 hh1 hm1 hh2 hm2 w1 w2 w3 w4]
  simp only [hnum]
  exact ⟨_, rfl, rfl, rfl⟩

/-- C4 at the time cells "09:00-09:45" and "  09:00 - 09:45 ": start 09:00, end
09:45. -/
theorem C4_valid_range_emitted_witness :
    (∃ l, parseRowLesson exampleToLower (timedSheet "09:00-09:45".toList "Math".toList) 1 "C".toList
        "Math".toList exampleHeader "Понедельник".toList = (l, true) ∧
      l.LessonStart = time_Date 2000 1 1 9 0 0 0 ∧
      l.LessonEnd = time_Date 2000 1 1 9 45 0 0) ∧
    (∃ l, parseRowLesson exampleToLower (timedSheet "  09:00 - 09:45 ".toList "Math".toList) 1 "C".toList
        "Math".toList exampleHeader "Понедельник".toList = (l, true) ∧
      l.LessonStart = time_Date 2000 1 1 9 0 0 0 ∧
      l.LessonEnd = time_Date 2000 1 1 9 45 0 0) :=
  ⟨C4_valid_range_emitted exampleToLower (timedSheet "09:00-09:45".toList "Math".toList) 1 "C".toList
      "Math".toList exampleHeader "Понедельник".toList 9 0 9 45 [] [] [] []
      "11".toList "А".toList 11
      (by decide) (by decide) (by decide) (by decide) (by decide)
      (by decide) (by decide) (by decide) (by decide) (by decide) (by decide) (by decide)
      (by decide),
    C4_valid_range_emitted exampleToLower (timedSheet "  09:00 - 09:45 ".toList "Math".toList) 1 "C".toList
      "Math".toList exampleHeader "Понедельник".toList 9 0 9 45 "  ".toList " ".toList
      " ".toList " ".toList "11".toList "А".toList 11
      (by decide) (by decide) (by decide) (by decide) (by decide)
      (by decide) (by decide) (by decide) (by decide) (by decide) (by decide) (by decide)
      (by decide)⟩

/-- C5 fails as stated: "9:00-9:45" has parts that are not strict `HH:MM`
tokens (one-digit hour), yet the single-cell builder emits a lesson, from 09:00
to 09:45. -/
theorem C5_counterexample :
    notTwoStrictTokens "9:00-9:45".toList ∧
    (timedSheet "9:00-9:45".toList "Math".toList).rawCellText
      ("B".toList ++ strconv_Itoa (1 + 1)) = "9:00-9:45".toList ∧
    (parseRowLesson exampleToLower (timedSheet "9:00-9:45".toList "Math".toList) 1 "C".toList "Math".toList
        exampleHeader "Понедельник".toList).2 = true ∧
    (parseRowLesson exampleToLower (timedSheet "9:00-9:45".toList "Math".toList) 1 "C".toList "Math".toList
        exampleHeader "Понедельник".toList).1.LessonStart = time_Date 2000 1 1 9 0 0 0 ∧
    (parseRowLesson exampleToLower (timedSheet "9:00-9:45".toList "Math".toList) 1 "C".toList "Math".toList
        exampleHeader "Понедельник".toList).1.LessonEnd = time_Date 2000 1 1 9 45 0 0 :=
  ⟨Or.inr ⟨"9:00".toList, by decide, by decide⟩, by decide, by decide, by decide, by decide⟩

/-- C5, amended. When the time cell does not split on `-` into exactly two
parts, or a trimmed part is not a token with an hour of one or two digits
(0-23), a colon and a two-digit minute (00-59), `parseRowLesson` returns the
absent value and the merged-range builder skips the range; the list of merged
lessons is still returned without error. -/
theorem C5_malformed_time_skipped (lower : Char → Char)
    (f : Sheet) (rowIndex : Nat) (colName cellValue : Str)
    (colToGrade : GradeMap) (lessonDay : Str) (mc : MergeCell) (before after : List MergeCell) :
    (notTwoClockTokens (f.rawCellText ("B".toList ++ strconv_Itoa (rowIndex + 1))) →
      parseRowLesson lower f rowIndex colName cellValue colToGrade lessonDay = (Lesson.zero, false)) ∧
    (notTwoClockTokens (f.rawCellText
        ("B".toList ++ strings_TrimLeftFunc mc.endAxis (fun r => !isDigitRune r))) →
      parseMergedLesson lower f colToGrade lessonDay mc = none ∧
      (f.mergeCells = .ok (before ++ mc :: after) →
        parseMergedLessons lower f colToGrade lessonDay =
          .ok (before.filterMap (parseMergedLesson lower f colToGrade lessonDay) ++
            after.filterMap (parseMergedLesson lower f colToGrade lessonDay)))) := by
  constructor
  · intro h
    rw [parseRowLesson_eq, assembleLesson_no_time _ _ _ _ (decodeTimeRange_none _ h)]
  · intro h
    have hnone : parseMergedLesson lower f colToGrade lessonDay mc = none := by
      rw [parseMergedLesson_eq, assembleLesson_no_time _ _ _ _ (decodeTimeRange_none _ h)]
      simp
    refine ⟨hnone, fun hm => ?_⟩
    unfold parseMergedLessons
    rw [hm]
    simp [List.filterMap_append, List.filterMap_cons, hnone]

/-- C5 amended, at the time cell "9.00-9.45" for the single-cell builder and at
an end-row time cell "no time" for the merged-range builder. -/
theorem C5_malformed_time_skipped_witness :
    notTwoClockTokens ((timedSheet "9.00-9.45".toList "Math".toList).rawCellText
      ("B".toList ++ strconv_Itoa (1 + 1))) ∧
    parseRowLesson exampleToLower (timedSheet "9.00-9.45".toList "Math".toList) 1 "C".toList "Math".toList
      exampleHeader "Понедельник".toList = (Lesson.zero, false) ∧
    parseMergedLesson exampleToLower (threeRowSheet "08:00-08:45".toList [] "no time".toList) exampleHeader
      "Понедельник".toList
      { value := "Math\nSmith".toList, startAxis := "C2".toList, endAxis := "C4".toList }
      = none ∧
    parseMergedLessons exampleToLower (threeRowSheet "08:00-08:45".toList [] "no time".toList) exampleHeader
      "Понедельник".toList = .ok [] :=
  ⟨Or.inr ⟨"9.00".toList, by decide, by decide⟩,
    (C5_malformed_time_skipped exampleToLower (timedSheet "9.00-9.45".toList "Math".toList) 1 "C".toList
      "Math".toList exampleHeader "Понедельник".toList ⟨[], [], []⟩ [] []).1
      (Or.inr ⟨"9.00".toList, by decide, by decide⟩),
    ((C5_malformed_time_skipped exampleToLower (threeRowSheet "08:00-08:45".toList [] "no time".toList) 1
      "C".toList "Math".toList exampleHeader "Понедельник".toList
      { value := "Math\nSmith".toList, startAxis := "C2".toList, endAxis := "C4".toList }
      [] []).2 (Or.inl (by decide))).1,
    ((C5_malformed_time_skipped exampleToLower (threeRowSheet "08:00-08:45".toList [] "no time".toList) 1
      "C".toList "Math".toList exampleHeader "Понедельник".toList
      { value := "Math\nSmith".toList, startAxis := "C2".toList, endAxis := "C4".toList }
      [] []).2 (Or.inl (by decide))).2 rfl⟩

/-- C6. Lesson-text decoding: for a cell text made of the lines `lines` whose
trimmed first line is `pre ++ "№" ++ post` with no marker in `pre`, the emitted
lesson has the trimmed `pre` as name, the trimmed text from the marker to the
end of the line as group, the trimmed second line as teacher and the trimmed
third line as room (empty when the line is absent); later lines are not read. -/
theorem C6_lesson_text_decoding (lower : Char → Char) (f : Sheet) (rowIndex : Nat) (colName : Str)
    (colToGrade : GradeMap) (lessonDay : Str) (startAxis endAxis : Str)
    (lines : List Str) (pre post : Str)
    (hne : lines ≠ []) (hnl : ∀ ln ∈ lines, '\n' ∉ ln)
    (hline : strings_TrimSpace (lines.getD 0 []) = pre ++ '№' :: post) (hpre : '№' ∉ pre) :
    (∀ l, parseRowLesson lower f rowIndex colName (['\n'].intercalate lines) colToGrade lessonDay
        = (l, true) →
      l.LessonName = strings_TrimSpace pre ∧
      l.LessonGroup = strings_TrimSpace ('№' :: post) ∧
      l.LessonTeacher = strings_TrimSpace (lines.getD 1 []) ∧
      l.LessonClass = strings_TrimSpace (lines.getD 2 [])) ∧
    (∀ l, parseMergedLesson lower f colToGrade lessonDay
        { value := ['\n'].intercalate lines, startAxis := startAxis, endAxis := endAxis }
        = some l →
      l.LessonName = strings_TrimSpace pre ∧
      l.LessonGroup = strings_TrimSpace ('№' :: post) ∧
      l.LessonTeacher = strings_TrimSpace (lines.getD 1 []) ∧
      l.LessonClass = strings_TrimSpace (lines.getD 2 [])) := by
  have hsplit := strings_Split_intercalate lines '\n' hne hnl
  have hfirst : firstLine (['\n'].intercalate lines) = lines.getD 0 [] := by
    unfold firstLine
    rw [← strings_Split_head, hsplit]
  have key : ∀ (tc : Str) (gp : Option (Str × Str)) (l : Lesson),
      assembleLesson lower tc gp (['\n'].intercalate lines) lessonDay = some l →
      l.LessonName = strings_TrimSpace pre ∧
      l.LessonGroup = strings_TrimSpace ('№' :: post) ∧
      l.LessonTeacher = strings_TrimSpace (lines.getD 1 []) ∧
      l.LessonClass = strings_TrimSpace (lines.getD 2 []) := by
    intro tc gp l h
    obtain ⟨name, group, teacher, room, sub, s, e, num, letter, g, hd, -, -, -, rfl⟩ :=
      assembleLesson_some _ _ _ _ _ h
    rw [decodeLessonText_marker _ pre post (by rw [hfirst]; exact hline) hpre, hsplit] at hd
    simp only [Option.some.injEq, Prod.mk.injEq] at hd
    obtain ⟨rfl, rfl, rfl, rfl, -⟩ := hd
    exact ⟨rfl, rfl, rfl, rfl⟩
  exact ⟨fun l h => key _ _ l (parseRowLesson_emit _ _ _ _ _ _ _ h),
    fun l h => key _ _ l (parseMergedLesson_emit _ _ _ _ _ h).2⟩

/-- C6 at the cell "Math№2\nSmith\nRoom 4": name "Math", group "№2", teacher
"Smith", room "Room 4". -/
theorem C6_lesson_text_decoding_witness :
    (parseRowLesson exampleToLower (timedSheet "09:00-09:45".toList "Math№2\nSmith\nRoom 4".toList) 1 "C".toList
        "Math№2\nSmith\nRoom 4".toList exampleHeader "Понедельник".toList).2 = true ∧
    (parseRowLesson exampleToLower (timedSheet "09:00-09:45".toList "Math№2\nSmith\nRoom 4".toList) 1 "C".toList
        "Math№2\nSmith\nRoom 4".toList exampleHeader "Понедельник".toList).1.LessonName
      = "Math".toList ∧
    (parseRowLesson exampleToLower (timedSheet "09:00-09:45".toList "Math№2\nSmith\nRoom 4".toList) 1 "C".toList
        "Math№2\nSmith\nRoom 4".toList exampleHeader "Понедельник".toList).1.LessonGroup
      = "№2".toList ∧
    (parseRowLesson exampleToLower (timedSheet "09:00-09:45".toList "Math№2\nSmith\nRoom 4".toList) 1 "C".toList
        "Math№2\nSmith\nRoom 4".toList exampleHeader "Понедельник".toList).1.LessonTeacher
      = "Smith".toList ∧
    (parseRowLesson exampleToLower (timedSheet "09:00-09:45".toList "Math№2\nSmith\nRoom 4".toList) 1 "C".toList
        "Math№2\nSmith\nRoom 4".toList exampleHeader "Понедельник".toList).1.LessonClass
      = "Room 4".toList :=
  ⟨by decide,
    (C6_lesson_text_decoding exampleToLower (timedSheet "09:00-09:45".toList "Math№2\nSmith\nRoom 4".toList) 1
      "C".toList exampleHeader "Понедельник".toList [] []
      ["Math№2".toList, "Smith".toList, "Room 4".toList] "Math".toList "2".toList
      (by decide) (by decide) (by decide) (by decide)).1 _ (by decide)⟩

/-- C7. Grade-header mapping of `parseSheet`: building it from a first row
never fails; it does not depend on the cells of columns A and B; for a row of at
most 16384 columns (the column limit of a sheet) its keys are exactly the
columns from C on whose header text is non-empty, each mapped to (text without
its last code point, last code point); the row ["", "", "11А", "12Б"] gives
C -> ("11", "А") and D -> ("12", "Б"). -/
theorem C7_grade_header_mapping (row : List Str) (rest : List (List Str)) :
    (∃ m, gradeHeader (row :: rest) = some m) ∧
    (∀ (a b a' b' : Str) (cs : List Str) (rest' : List (List Str)), row = a :: b :: cs →
      gradeHeader ((a' :: b' :: cs) :: rest') = gradeHeader (row :: rest)) ∧
    (row.length ≤ 16384 →
      ∃ m, gradeHeader (row :: rest) = some m ∧
        (∀ j pre last, 2 ≤ j → row.get? j = some (pre ++ [last]) →
          List.lookup (ColumnNumberToName (j + 1)) m = some (pre, [last])) ∧
        (∀ j, j < row.length → (j < 2 ∨ row.get? j = some []) →
          List.lookup (ColumnNumberToName (j + 1)) m = none) ∧
        (∀ key, (∀ j, j < row.length → key ≠ ColumnNumberToName (j + 1)) →
          List.lookup key m = none)) ∧
    gradeHeader [[[], [], "11А".toList, "12Б".toList]] =
      some [("D".toList, ("12".toList, "Б".toList)), ("C".toList, ("11".toList, "А".toList))] := by
  refine ⟨headerRow_isSome row [] 0, ?_, ?_, by decide⟩
  · rintro a b a' b' cs rest' rfl
    have hA : ColumnNumberToName (0 + 1) = "A".toList := by decide
    have hB : ColumnNumberToName (0 + 1 + 1) = "B".toList := by decide
    simp only [gradeHeader, headerRow, hA, hB, headerCell_skip _ _ _ (Or.inl rfl),
      headerCell_skip _ _ _ (Or.inr (Or.inl rfl))]
  · intro hlen
    obtain ⟨m, hm, hA, hB, hC⟩ := headerRow_spec row [] 0 (by omega)
    refine ⟨m, hm, ?_, ?_, ?_⟩
    · intro j pre last hj hget
      have := hA j pre last (by omega) hget
      rwa [Nat.zero_add] at this
    · intro j hj hor
      have := hB j hj (by rwa [Nat.zero_add])
      rw [Nat.zero_add] at this
      rw [this]; rfl
    · intro key hkey
      rw [hC key (fun j hj => by rw [Nat.zero_add]; exact hkey j hj)]
      rfl

/-- C7 at the header row ["Понедельник", "Время", "11А", "12Б"]. -/
theorem C7_grade_header_mapping_witness :
    ["Понедельник".toList, "Время".toList, "11А".toList, "12Б".toList].length ≤ 16384 ∧
    (∃ m, gradeHeader (["Понедельник".toList, "Время".toList, "11А".toList, "12Б".toList] :: [])
        = some m ∧
      List.lookup (ColumnNumberToName (2 + 1)) m = some ("11".toList, ['А']) ∧
      List.lookup (ColumnNumberToName (3 + 1)) m = some ("12".toList, ['Б']) ∧
      List.lookup (ColumnNumberToName (0 + 1)) m = none) ∧
    gradeHeader [["Понедельник".toList, "Время".toList, "11А".toList, "12Б".toList]] =
      gradeHeader [[[], [], "11А".toList, "12Б".toList]] := by
  refine ⟨by decide, ?_, ?_⟩
  · obtain ⟨m, hm, hA, hB, _⟩ :=
      (C7_grade_header_mapping ["Понедельник".toList, "Время".toList, "11А".toList,
        "12Б".toList] []).2.2.1 (by decide)
    exact ⟨m, hm, hA 2 "11".toList 'А' (by decide) (by decide),
      hA 3 "12".toList 'Б' (by decide) (by decide), hB 0 (by decide) (Or.inl (by decide))⟩
  · exact ((C7_grade_header_mapping [[], [], "11А".toList, "12Б".toList] []).2.1
      [] [] "Понедельник".toList "Время".toList ["11А".toList, "12Б".toList] [] rfl)

/-- C8. Day Resolver token table: every token of the table, given alone to
`parseDayToIndex`, maps to the index of its own weekday (the tokens are in
lower case, which `unicode.ToLower` leaves unchanged); no token contains a token
of an earlier weekday; and every text whose trimmed lower-cased form contains
none of the tokens maps to 0. -/
theorem C8_day_token_table (lower : Char → Char) :
    ((∀ i < 8, ∀ tok ∈ weekdayTokens i, strings_ToLower lower tok = tok) →
      ∀ (i : Nat) (tok : Str), tok ∈ weekdayTokens i →
        parseDayToIndex lower tok = (i : Int)) ∧
    (∀ i < 8, ∀ j < i, ∀ tok ∈ weekdayTokens i, ¬ mentionsDay tok j) ∧
    (∀ day : Str,
      (∀ j, j < 8 → ¬ mentionsDay (strings_ToLower lower (strings_TrimSpace day)) j) →
        parseDayToIndex lower day = 0) := by
  refine ⟨?_, by decide, ?_⟩
  · intro hfix i tok h
    have key : ∀ i < 8, ∀ tok ∈ weekdayTokens i,
        strings_TrimSpace tok = tok ∧
        (if mentionsDay tok 1 then 1
          else if mentionsDay tok 2 then 2
          else if mentionsDay tok 3 then 3
          else if mentionsDay tok 4 then 4
          else if mentionsDay tok 5 then 5
          else if mentionsDay tok 6 then 6
          else if mentionsDay tok 7 then 7
          else 0) = (i : Int) := by decide
    have hi : i < 8 := by
      by_contra hge
      have hnil : weekdayTokens i = [] := by
        unfold weekdayTokens
        split <;> first | omega | rfl
      rw [hnil] at h
      simp at h
    rw [parseDayToIndex_eq, (key i hi tok h).1, hfix i hi tok h]
    exact (key i hi tok h).2
  · intro day h
    rcases parseDayToIndex_cases day
      (mentionsDay (strings_ToLower lower (strings_TrimSpace day))) rfl
      with c | c | c | c | c | c | c | c
    · exact absurd c.1 (h 1 (by omega))
    · exact absurd c.2.1 (h 2 (by omega))
    · exact absurd c.2.2.1 (h 3 (by omega))
    · exact absurd c.2.2.2.1 (h 4 (by omega))
    · exact absurd c.2.2.2.2.1 (h 5 (by omega))
    · exact absurd c.2.2.2.2.2.1 (h 6 (by omega))
    · exact absurd c.2.2.2.2.2.2.1 (h 7 (by omega))
    · exact c.2.2.2.2.2.2.2

/-- C8 at concrete inputs: the token "среда" of weekday 3, and the text
" Holiday ", which contains no token. -/
theorem C8_day_token_table_witness :
    (∀ i < 8, ∀ tok ∈ weekdayTokens i, strings_ToLower exampleToLower tok = tok) ∧
    "среда".toList ∈ weekdayTokens 3 ∧ parseDayToIndex exampleToLower "среда".toList = 3 ∧
    (∀ j, j < 8 →
      ¬ mentionsDay (strings_ToLower exampleToLower (strings_TrimSpace " Holiday ".toList)) j) ∧
    parseDayToIndex exampleToLower " Holiday ".toList = 0 :=
  ⟨by decide, by decide,
    (C8_day_token_table exampleToLower).1 (by decide) 3 "среда".toList (by decide), by decide,
    (C8_day_token_table exampleToLower).2.2 " Holiday ".toList (by decide)⟩

/-- C9. Day Resolver first-match rule: `parseDayToIndex` returns the smallest
weekday index `i` in 1..7 such that the trimmed lower-cased input contains a
token of weekday `i`, and 0 exactly when there is none; the result lies in
0..7, and "sunday monday" (a text in lower case, which `unicode.ToLower` leaves
unchanged) resolves to Monday (1). -/
theorem C9_first_match (lower : Char → Char) (day : Str) :
    (∀ i : Nat, 1 ≤ i → i ≤ 7 →
      (parseDayToIndex lower day = (i : Int) ↔
        mentionsDay (strings_ToLower lower (strings_TrimSpace day)) i ∧
          ∀ j, j < i → ¬ mentionsDay (strings_ToLower lower (strings_TrimSpace day)) j)) ∧
    (parseDayToIndex lower day = 0 ↔
      ∀ j, j < 8 → ¬ mentionsDay (strings_ToLower lower (strings_TrimSpace day)) j) ∧
    0 ≤ parseDayToIndex lower day ∧ parseDayToIndex lower day ≤ 7 ∧
    (strings_ToLower lower "sunday monday".toList = "sunday monday".toList →
      parseDayToIndex lower "sunday monday".toList = 1) := by
  have hlast : strings_ToLower lower "sunday monday".toList = "sunday monday".toList →
      parseDayToIndex lower "sunday monday".toList = 1 := by
    intro h
    have ht : strings_TrimSpace "sunday monday".toList = "sunday monday".toList := by decide
    rw [parseDayToIndex_eq, ht, h]
    decide
  have h0 : ¬ mentionsDay (strings_ToLower lower (strings_TrimSpace day)) 0 := by
    simp [mentionsDay, weekdayTokens]
  obtain ⟨m, hm⟩ : ∃ m, m = mentionsDay (strings_ToLower lower (strings_TrimSpace day)) :=
    ⟨_, rfl⟩
  have hc := parseDayToIndex_cases day m hm
  rw [← hm] at h0 ⊢
  generalize parseDayToIndex lower day = r at hc
  have small : ∀ (i : Nat) (P : Nat → Prop), (∀ j, j < i → P j) ↔ ∀ j ∈ List.range i, P j := by
    intro i P; simp
  refine ⟨?_, ?_, ?_, ?_, hlast⟩
  · intro i h1 h7
    rw [small]
    interval_cases i <;> simp only [List.range_succ, List.range_zero, List.nil_append,
      List.cons_append, List.forall_mem_cons, List.not_mem_nil, false_imp_iff, implies_true,
      and_true] <;>
      rcases hc with h | h | h | h | h | h | h | h <;> simp [h, h0]
  · rw [small]
    simp only [List.range_succ, List.range_zero, List.nil_append, List.cons_append,
      List.forall_mem_cons, List.not_mem_nil, false_imp_iff, implies_true, and_true]
    rcases hc with h | h | h | h | h | h | h | h <;> simp [h, h0]
  · rcases hc with h | h | h | h | h | h | h | h <;> simp [h]
  · rcases hc with h | h | h | h | h | h | h | h <;> simp [h]

/-- C9 at concrete inputs: "Sunday, not Tuesday" and weekday 2; "FRİDAY" (with
U+0130, which `unicode.ToLower` maps to "i") and weekday 5; "sunday monday". -/
theorem C9_first_match_witness :
    (parseDayToIndex exampleToLower "Sunday, not Tuesday".toList = ((2 : Nat) : Int) ↔
      mentionsDay
          (strings_ToLower exampleToLower (strings_TrimSpace "Sunday, not Tuesday".toList)) 2 ∧
        ∀ j, j < 2 → ¬ mentionsDay
          (strings_ToLower exampleToLower (strings_TrimSpace "Sunday, not Tuesday".toList)) j) ∧
    parseDayToIndex exampleToLower "Sunday, not Tuesday".toList = 2 ∧
    (parseDayToIndex exampleToLower "FRİDAY".toList = ((5 : Nat) : Int) ↔
      mentionsDay (strings_ToLower exampleToLower (strings_TrimSpace "FRİDAY".toList)) 5 ∧
        ∀ j, j < 5 → ¬ mentionsDay
          (strings_ToLower exampleToLower (strings_TrimSpace "FRİDAY".toList)) j) ∧
    parseDayToIndex exampleToLower "FRİDAY".toList = 5 ∧
    parseDayToIndex exampleToLower "sunday monday".toList = 1 :=
  ⟨(C9_first_match exampleToLower "Sunday, not Tuesday".toList).1 2 (by decide) (by decide),
    by decide,
    (C9_first_match exampleToLower "FRİDAY".toList).1 5 (by decide) (by decide),
    by decide,
    (C9_first_match exampleToLower []).2.2.2.2 (by decide)⟩

/-- C10. Merged-range builder: for a range with non-empty text whose start
address is `startCol ++ startRow` and whose end address is `endCol ++ endRow`
(letters, then digits), the lesson is assembled from the time cell `B` of the
end row and the header entry of the start column; it does not change when the
other cells of the sheet or the other header entries change. -/
theorem C10_merged_time_from_end_row (lower : Char → Char)
    (f f' : Sheet) (colToGrade colToGrade' : GradeMap)
    (lessonDay val startCol startRow endCol endRow : Str)
    (hsc : ∀ c ∈ startCol, isDigitRune c = false) (hsr : ∀ c ∈ startRow, isDigitRune c = true)
    (hec : ∀ c ∈ endCol, isDigitRune c = false) (her : ∀ c ∈ endRow, isDigitRune c = true)
    (hval : val ≠ []) :
    parseMergedLesson lower f colToGrade lessonDay
        { value := val, startAxis := startCol ++ startRow, endAxis := endCol ++ endRow } =
      assembleLesson lower (f.rawCellText ("B".toList ++ endRow)) (colToGrade.lookup startCol)
        val lessonDay ∧
    (f.rawCellText ("B".toList ++ endRow) = f'.rawCellText ("B".toList ++ endRow) →
      colToGrade.lookup startCol = colToGrade'.lookup startCol →
      parseMergedLesson lower f colToGrade lessonDay
          { value := val, startAxis := startCol ++ startRow, endAxis := endCol ++ endRow } =
        parseMergedLesson lower f' colToGrade' lessonDay
          { value := val, startAxis := startCol ++ startRow, endAxis := endCol ++ endRow }) ∧
    (∀ l, parseMergedLesson lower f colToGrade lessonDay
          { value := val, startAxis := startCol ++ startRow, endAxis := endCol ++ endRow }
          = some l →
      ∃ s e num letter,
        decodeTimeRange (f.rawCellText ("B".toList ++ endRow)) = some (s, e) ∧
        l.LessonStart = time_Date 2000 1 1 s.1 s.2 0 0 ∧
        l.LessonEnd = time_Date 2000 1 1 e.1 e.2 0 0 ∧
        colToGrade.lookup startCol = some (num, letter) ∧
        strconv_Atoi num = some l.Grade ∧
        (l.GradeLetter = letter ∨ l.GradeLetter = [])) := by
  have key : ∀ (g : Sheet) (m : GradeMap),
      parseMergedLesson lower g m lessonDay
        { value := val, startAxis := startCol ++ startRow, endAxis := endCol ++ endRow } =
      assembleLesson lower (g.rawCellText ("B".toList ++ endRow)) (m.lookup startCol) val lessonDay := by
    intro g m
    rw [parseMergedLesson_eq]
    simp only [hval, if_false, startCol_of_axis _ _ hsc hsr, endRow_of_axis _ _ hec her]
  refine ⟨key f colToGrade, ?_, ?_⟩
  · intro h1 h2
    rw [key, key, h1, h2]
  · intro l hl
    rw [key] at hl
    obtain ⟨name, group, teacher, room, sub, s, e, num, letter, g, -, ht, hg, hn, rfl⟩ :=
      assembleLesson_some _ _ _ _ _ hl
    refine ⟨s, e, num, letter, ht, rfl, rfl, hg, hn, ?_⟩
    cases sub <;> simp

/-- C10 at the range C2:C4 with end-row time cell "10:30-11:15": the lesson runs
from 10:30 to 11:15 for grade 11А, with or without time cells on rows 2 and 3. -/
theorem C10_merged_time_from_end_row_witness :
    parseMergedLesson exampleToLower (threeRowSheet "08:00-08:45".toList "no time".toList "10:30-11:15".toList)
        exampleHeader "Понедельник".toList
        { value := "Math\nSmith".toList, startAxis := "C2".toList, endAxis := "C4".toList } =
      parseMergedLesson exampleToLower (threeRowSheet [] [] "10:30-11:15".toList) exampleHeader
        "Понедельник".toList
        { value := "Math\nSmith".toList, startAxis := "C2".toList, endAxis := "C4".toList } ∧
    (parseMergedLesson exampleToLower (threeRowSheet "08:00-08:45".toList "no time".toList "10:30-11:15".toList)
        exampleHeader "Понедельник".toList
        { value := "Math\nSmith".toList, startAxis := "C2".toList, endAxis := "C4".toList }).map
        (fun l => (l.LessonStart, l.LessonEnd, l.Grade, l.GradeLetter)) =
      some (time_Date 2000 1 1 10 30 0 0, time_Date 2000 1 1 11 15 0 0, 11, "А".toList) :=
  ⟨(C10_merged_time_from_end_row exampleToLower
      (threeRowSheet "08:00-08:45".toList "no time".toList "10:30-11:15".toList)
      (threeRowSheet [] [] "10:30-11:15".toList) exampleHeader exampleHeader
      "Понедельник".toList "Math\nSmith".toList "C".toList "2".toList "C".toList "4".toList
      (by decide) (by decide) (by decide) (by decide) (by decide)).2.1 (by decide) (by decide),
    by decide⟩

/-- C11. Sheet Extractor output order: on a sheet whose three reads succeed,
`parseSheet` returns the lessons of the row pass (data rows in increasing row
order, cells in increasing column order, columns A and B excluded, one lesson
per cell for which `parseRowLesson` succeeds) followed by the lessons of the
merged ranges in the order they are listed; nothing is removed, so the length
is the number of row-pass successes plus the number of merged-pass successes. -/
theorem C11_sheet_output_order (lower : Char → Char)
    (f : Sheet) (day : Str) (rows : List (List Str))
    (mcs : List MergeCell) (h1 : f.cellA1 = .ok day) (h2 : f.rows = .ok rows)
    (h3 : f.mergeCells = .ok mcs) :
    ∃ m, gradeHeader rows = some m ∧
      parseSheet lower f =
        .ok (rowPass lower f m day rows ++ mcs.filterMap (parseMergedLesson lower f m day)) ∧
      ∀ ls, parseSheet lower f = .ok ls →
        ls.length =
          ((rows.enum.drop 1).map (fun r =>
            r.2.enum.countP (fun p => (rowCellLesson lower f m day r.1 p).isSome))).sum +
          mcs.countP (fun mc => (parseMergedLesson lower f m day mc).isSome) := by
  obtain ⟨m, hm⟩ := gradeHeader_isSome rows
  refine ⟨m, hm, parseSheet_ok f day rows mcs m h1 h2 h3 hm, ?_⟩
  intro ls hls
  rw [parseSheet_ok f day rows mcs m h1 h2 h3 hm] at hls
  simp only [Except.ok.injEq] at hls
  subst hls
  rw [List.length_append, List.length_filterMap_eq_countP]
  unfold rowPass
  rw [length_flatMap_sum]
  simp only [List.length_filterMap_eq_countP]

/-- C11 at the example sheet with the merged range C2:C4. -/
theorem C11_sheet_output_order_witness :
    ∃ m, gradeHeader [["Понедельник".toList, "Время".toList, "11А".toList, "12Б".toList],
        [[], "08:00-08:45".toList, "Math\nSmith".toList], [[], []],
        [[], "10:30-11:15".toList]] = some m ∧
      parseSheet exampleToLower (threeRowSheet "08:00-08:45".toList [] "10:30-11:15".toList) =
        .ok (rowPass exampleToLower (threeRowSheet "08:00-08:45".toList [] "10:30-11:15".toList) m
            "Понедельник".toList
            [["Понедельник".toList, "Время".toList, "11А".toList, "12Б".toList],
              [[], "08:00-08:45".toList, "Math\nSmith".toList], [[], []],
              [[], "10:30-11:15".toList]] ++
          [{ value := "Math\nSmith".toList, startAxis := "C2".toList,
             endAxis := "C4".toList }].filterMap
            (parseMergedLesson exampleToLower (threeRowSheet "08:00-08:45".toList [] "10:30-11:15".toList) m
              "Понедельник".toList)) ∧
      ∀ ls, parseSheet exampleToLower (threeRowSheet "08:00-08:45".toList [] "10:30-11:15".toList) = .ok ls →
        ls.length =
          (([["Понедельник".toList, "Время".toList, "11А".toList, "12Б".toList],
              [[], "08:00-08:45".toList, "Math\nSmith".toList], [[], []],
              [[], "10:30-11:15".toList]].enum.drop 1).map (fun r =>
            r.2.enum.countP (fun p =>
              (rowCellLesson exampleToLower (threeRowSheet "08:00-08:45".toList [] "10:30-11:15".toList) m
                "Понедельник".toList r.1 p).isSome))).sum +
          [{ value := "Math\nSmith".toList, startAxis := "C2".toList,
             endAxis := "C4".toList }].countP (fun mc =>
            (parseMergedLesson exampleToLower (threeRowSheet "08:00-08:45".toList [] "10:30-11:15".toList) m
              "Понедельник".toList mc).isSome) :=
  C11_sheet_output_order exampleToLower (threeRowSheet "08:00-08:45".toList [] "10:30-11:15".toList)
    "Понедельник".toList _ _ rfl rfl rfl

/-- C12. Orchestrator sheet selection: when every sheet whose name starts with
"12" is extracted without error and the database accepts its lessons, changing
at most the primary key it assigns, `ParseExcel` returns without error the
lessons of exactly those sheets, concatenated in workbook order (up to that
key, which `parseSheet` leaves 0); a workbook without such a sheet yields the
empty sequence, no error and an unchanged store. -/
theorem C12_sheet_selection (lower : Char → Char) (db : DB) (wb : Workbook) (store : Store) :
    ((∀ f ∈ wb.sheets, strings_HasPrefix f.name "12".toList = true →
        ∃ ls, parseSheet lower f = .ok ls) →
      (∀ f ∈ wb.sheets, strings_HasPrefix f.name "12".toList = true →
        ∀ table, ∃ stored, db.create table (lessonsOf (parseSheet lower f)) = .ok stored ∧
          stored.map Lesson.content = (lessonsOf (parseSheet lower f)).map Lesson.content) →
      ∃ ls, (ParseExcel lower db (.ok wb) store).1 = .ok ls ∧
        ls.map Lesson.content = selectedLessons lower wb.sheets) ∧
    ((∀ f ∈ wb.sheets, strings_HasPrefix f.name "12".toList = false) →
      ParseExcel lower db (.ok wb) store = (.ok [], store)) := by
  constructor
  · intro hparse hsave
    obtain ⟨ls, h1, h2⟩ := parseExcelLoop_ok db wb.sheets [] store hparse hsave
    exact ⟨ls, by simpa [ParseExcel] using h1, h2⟩
  · intro h
    simp only [ParseExcel]
    exact parseExcelLoop_no_match db wb.sheets [] store h

/-- C12 at a workbook with a sheet "Лист1" and a timetable sheet "12 пн", and at
a workbook with the sheet "Лист1" alone. -/
theorem C12_sheet_selection_witness :
    (∃ ls, (ParseExcel exampleToLower sequenceDB (.ok mixedWorkbook) []).1 = .ok ls ∧
      ls.map Lesson.content = selectedLessons exampleToLower mixedWorkbook.sheets) ∧
    selectedLessons exampleToLower mixedWorkbook.sheets =
      lessonsOf (parseSheet exampleToLower (timedSheet "09:00-09:45".toList "Math".toList)) ∧
    ParseExcel exampleToLower sequenceDB
      (.ok { sheets := [{ timedSheet "08:00-08:45".toList "Art".toList with
        name := "Лист1".toList }] }) [] = (.ok [], []) :=
  ⟨(C12_sheet_selection exampleToLower sequenceDB mixedWorkbook []).1
      (by
        intro f hf hp
        simp only [mixedWorkbook, List.mem_cons, List.mem_singleton, List.not_mem_nil,
          or_false] at hf
        rcases hf with rfl | rfl
        · exact absurd hp (by decide)
        · exact ⟨_, rfl⟩)
      (by
        intro f hf hp table
        simp only [mixedWorkbook, List.mem_cons, List.mem_singleton, List.not_mem_nil,
          or_false] at hf
        rcases hf with rfl | rfl
        · exact absurd hp (by decide)
        · exact ⟨_, rfl, rfl⟩),
    rfl,
    (C12_sheet_selection exampleToLower sequenceDB
      { sheets := [{ timedSheet "08:00-08:45".toList "Art".toList with
        name := "Лист1".toList }] } []).2
      (by
        intro f hf
        simp only [List.mem_singleton] at hf
        subst hf
        decide)⟩

/-- C13, evaluated at a workbook with two timetable sheets of one lesson each,
the store empty before: `ParseExcel` succeeds and has written the store twice,
one batch per sheet, neither batch being the complete sequence; the scheduler
job then saves the returned lessons once more, which a database with a primary
key rejects (the rows carry the keys of the first insertion) and a database
without that check stores as a third batch. -/
theorem C13_one_write_per_sheet :
    (ParseExcel exampleToLower keyedDB (.ok twoSheetWorkbook) []).1.toOption.map
        (fun ls => ls.map (fun l => (l.ID, l.LessonName))) =
      some [(1, "Math".toList), (2, "Art".toList)] ∧
    (ParseExcel exampleToLower keyedDB (.ok twoSheetWorkbook) []).2.map
        (fun batch => batch.map (fun l => (l.ID, l.LessonName))) =
      [[(1, "Math".toList)], [(2, "Art".toList)]] ∧
    (excelParserJob exampleToLower keyedDB (.ok twoSheetWorkbook) []).map
        (fun batch => batch.map (fun l => (l.ID, l.LessonName))) =
      [[(1, "Math".toList)], [(2, "Art".toList)]] ∧
    (excelParserJob exampleToLower sequenceDB (.ok twoSheetWorkbook) []).map
        (fun batch => batch.map (fun l => (l.ID, l.LessonName))) =
      [[(1, "Math".toList)], [(2, "Art".toList)], [(3, "Math".toList), (4, "Art".toList)]] := by
  refine ⟨by decide, by decide, by decide, by decide⟩

/-- C14. `parseSheet` returns an error if and only if one of its three
structural reads fails (the A1 read, the row read, the merged-range list read);
when the three succeed it returns a lesson list whatever the cells hold, and
when every time-cell lookup fails it returns the empty list, still without
error. -/
theorem C14_cell_malformation_not_fatal (lower : Char → Char) (f : Sheet) :
    ((∃ e, parseSheet lower f = .error e) ↔
      ((∃ e, f.cellA1 = .error e) ∨ (∃ e, f.rows = .error e) ∨
        (∃ e, f.mergeCells = .error e))) ∧
    (∀ day rows mcs, f.cellA1 = .ok day → f.rows = .ok rows → f.mergeCells = .ok mcs →
      ∃ ls, parseSheet lower f = .ok ls) ∧
    (∀ day rows mcs, f.cellA1 = .ok day → f.rows = .ok rows → f.mergeCells = .ok mcs →
      (∀ address, ∃ e, f.rawCell address = .error e) → parseSheet lower f = .ok []) := by
  refine ⟨parseSheet_error_iff f, ?_, ?_⟩
  · intro day rows mcs h1 h2 h3
    obtain ⟨m, hm⟩ := gradeHeader_isSome rows
    exact ⟨_, parseSheet_ok f day rows mcs m h1 h2 h3 hm⟩
  · intro day rows mcs h1 h2 h3 hraw
    obtain ⟨m, hm⟩ := gradeHeader_isSome rows
    have hr : ∀ address, f.rawCellText address = [] := by
      intro a
      obtain ⟨e, he⟩ := hraw a
      unfold Sheet.rawCellText
      rw [he]
    rw [parseSheet_ok f day rows mcs m h1 h2 h3 hm, rowPass_no_time f m day rows hr]
    have : mcs.filterMap (parseMergedLesson lower f m day) = [] := by
      rw [List.eq_nil_iff_forall_not_mem]
      intro l hl
      rw [List.mem_filterMap] at hl
      obtain ⟨mc, -, hmc⟩ := hl
      have := (parseMergedLesson_emit _ _ _ _ _ hmc).2
      rw [hr, assembleLesson_no_time _ _ _ _ decodeTimeRange_nil] at this
      simp at this
    rw [this]
    rfl

/-- C14 at a sheet whose time cell is "9h to 10h" and at a sheet whose
single-cell reads all fail: no lesson, no error. -/
theorem C14_cell_malformation_not_fatal_witness :
    (∃ ls, parseSheet exampleToLower (timedSheet "9h to 10h".toList "Math".toList) = .ok ls) ∧
    parseSheet exampleToLower (timedSheet "9h to 10h".toList "Math".toList) = .ok [] ∧
    parseSheet exampleToLower { timedSheet "09:00-09:45".toList "Math".toList with
      rawCell := fun _ => .error (Error.lib "invalid cell reference".toList) } = .ok [] :=
  ⟨(C14_cell_malformation_not_fatal exampleToLower (timedSheet "9h to 10h".toList "Math".toList)).2.1
      _ _ _ rfl rfl rfl,
    rfl,
    (C14_cell_malformation_not_fatal exampleToLower { timedSheet "09:00-09:45".toList "Math".toList with
      rawCell := fun _ => .error (Error.lib "invalid cell reference".toList) }).2.2
      _ _ _ rfl rfl rfl (fun _ => ⟨_, rfl⟩)⟩

/-- C15, evaluated at the cell "№2\nSmith": its first line is not blank, so the
guard on the first line lets it through, and the lesson is emitted with the
empty `LessonName` (the text before the marker), group "№2" and teacher
"Smith". -/
theorem C15_empty_name_emitted :
    (parseSheet exampleToLower (timedSheet "09:00-09:45".toList "№2\nSmith".toList)).toOption.map
        (fun ls => ls.map (fun l => (l.LessonName, l.LessonGroup, l.LessonTeacher))) =
      some [([], "№2".toList, "Smith".toList)] ∧
    (parseRowLesson exampleToLower (timedSheet "09:00-09:45".toList "№2\nSmith".toList) 1 "C".toList
        "№2\nSmith".toList exampleHeader "Понедельник".toList).2 = true ∧
    (parseRowLesson exampleToLower (timedSheet "09:00-09:45".toList "№2\nSmith".toList) 1 "C".toList
        "№2\nSmith".toList exampleHeader "Понедельник".toList).1.LessonName = [] ∧
    strings_TrimSpace (firstLine "№2\nSmith".toList) ≠ [] := by
  refine ⟨by decide, by decide, by decide, by decide⟩

/-- C16 fails as stated: the header "0А" gives lessons of grade 0 and the header
"-1А" lessons of grade -1. -/
theorem C16_counterexample :
    (parseSheet exampleToLower (gradeSheet "0А".toList)).toOption.map
        (fun ls => ls.map (fun l => (l.Grade, l.GradeLetter, l.LessonName))) =
      some [(0, "А".toList, "Math".toList)] ∧
    (parseSheet exampleToLower (gradeSheet "-1А".toList)).toOption.map
        (fun ls => ls.map (fun l => (l.Grade, l.GradeLetter, l.LessonName))) =
      some [(-1, "А".toList, "Math".toList)] := by
  refine ⟨by decide, by decide⟩

/-- C16, amended. Every lesson emitted by either builder has as `Grade` the
integer `strconv.Atoi` reads from the header text without its last character
(an optional sign and decimal digits, within the `int` range; zero and negative
values included), and a column whose header prefix `Atoi` rejects produces no
lesson. -/
theorem C16_grade_from_header (lower : Char → Char)
    (f : Sheet) (rowIndex : Nat) (colName cellValue : Str)
    (colToGrade : GradeMap) (lessonDay : Str) (mc : MergeCell) :
    (∀ l, parseRowLesson lower f rowIndex colName cellValue colToGrade lessonDay = (l, true) →
      ∃ num letter, colToGrade.lookup colName = some (num, letter) ∧
        strconv_Atoi num = some l.Grade ∧
        -(2 : Int) ^ 63 ≤ l.Grade ∧ l.Grade ≤ (2 : Int) ^ 63 - 1) ∧
    (∀ num letter, colToGrade.lookup colName = some (num, letter) →
      strconv_Atoi num = none →
      parseRowLesson lower f rowIndex colName cellValue colToGrade lessonDay
        = (Lesson.zero, false)) ∧
    (∀ l, parseMergedLesson lower f colToGrade lessonDay mc = some l →
      ∃ num letter,
        colToGrade.lookup (strings_TrimRightFunc mc.startAxis isDigitRune)
          = some (num, letter) ∧
        strconv_Atoi num = some l.Grade ∧
        -(2 : Int) ^ 63 ≤ l.Grade ∧ l.Grade ≤ (2 : Int) ^ 63 - 1) ∧
    (∀ num letter,
      colToGrade.lookup (strings_TrimRightFunc mc.startAxis isDigitRune)
        = some (num, letter) →
      strconv_Atoi num = none →
      parseMergedLesson lower f colToGrade lessonDay mc = none) := by
  refine ⟨?_, ?_, ?_, ?_⟩
  · intro l h
    exact assembleLesson_grade _ _ _ _ l (parseRowLesson_emit _ _ _ _ _ _ _ h)
  · intro num letter hl hn
    rw [parseRowLesson_eq, hl, assembleLesson_no_grade _ _ _ _ _ hn]
  · intro l h
    exact assembleLesson_grade _ _ _ _ l (parseMergedLesson_emit _ _ _ _ _ h).2
  · intro num letter hl hn
    rw [parseMergedLesson_eq, hl, assembleLesson_no_grade _ _ _ _ _ hn]
    simp

/-- C16 amended, at the header entries ("0", "А") and ("XI", "А"). -/
theorem C16_grade_from_header_witness :
    (∃ num letter, List.lookup "C".toList [("C".toList, ("0".toList, "А".toList))]
        = some (num, letter) ∧
      strconv_Atoi num = some (parseRowLesson exampleToLower (gradeSheet "0А".toList) 1 "C".toList
        "Math".toList [("C".toList, ("0".toList, "А".toList))] "Понедельник".toList).1.Grade ∧
      -(2 : Int) ^ 63 ≤ (parseRowLesson exampleToLower (gradeSheet "0А".toList) 1 "C".toList
        "Math".toList [("C".toList, ("0".toList, "А".toList))] "Понедельник".toList).1.Grade ∧
      (parseRowLesson exampleToLower (gradeSheet "0А".toList) 1 "C".toList
        "Math".toList [("C".toList, ("0".toList, "А".toList))] "Понедельник".toList).1.Grade
        ≤ (2 : Int) ^ 63 - 1) ∧
    parseRowLesson exampleToLower (gradeSheet "XIА".toList) 1 "C".toList "Math".toList
      [("C".toList, ("XI".toList, "А".toList))] "Понедельник".toList = (Lesson.zero, false) :=
  ⟨(C16_grade_from_header exampleToLower (gradeSheet "0А".toList) 1 "C".toList "Math".toList
      [("C".toList, ("0".toList, "А".toList))] "Понедельник".toList ⟨[], [], []⟩).1 _
      (by decide),
    (C16_grade_from_header exampleToLower (gradeSheet "XIА".toList) 1 "C".toList "Math".toList
      [("C".toList, ("XI".toList, "А".toList))] "Понедельник".toList ⟨[], [], []⟩).2.1
      "XI".toList "А".toList (by decide) (by decide)⟩

/-- C17 fails as stated: on a timetable sheet with five ordinary lesson cells
and one merged 2-row range, whose text the row grid holds at the start cell of
the range, `ParseExcel` returns 7 lessons, the range being emitted by the row
pass (time of its start row) and again by the merged-range pass (time of its
end row). -/
theorem C17_counterexample :
    (ParseExcel exampleToLower keyedDB (.ok { sheets := [weekSheet] }) []).1.toOption.map
        (fun ls => ls.map (fun l => (l.LessonName, l.LessonStart.hour))) =
      some [("Math".toList, 8), ("Physics".toList, 8), ("History".toList, 9),
        ("Chemistry".toList, 9), ("Art".toList, 10), ("PE".toList, 10), ("PE".toList, 11)] ∧
    (ParseExcel exampleToLower keyedDB (.ok { sheets := [weekSheet] }) []).1.toOption.map List.length
      = some 7 := by
  refine ⟨by decide, by decide⟩





/-- C17, amended. Take a workbook with one timetable sheet whose reads succeed,
whose header maps every grade column to an integer grade, whose data rows all
have a valid time cell, and whose single merged range starts at the data cell
in row `r0`, column `c0` (0-based) and ends one row below; the grid holds the
text of the range at that start cell, which is well-formed.  When the save
succeeds `ParseExcel` returns one lesson per well-formed cell of the grid, the
start cell included, and one more for the range: exactly 7 lessons when the
grid has 5 well-formed cells besides the start cell, and exactly 6 when it has
5 well-formed cells with the start cell counted among them. -/
theorem C17_end_to_end_count (lower : Char → Char) (db : DB) (f : Sheet) (store : Store)
    (day val : Str) (rows : List (List Str)) (m : GradeMap) (r0 c0 c1 : Nat)
    (hname : strings_HasPrefix f.name "12".toList = true)
    (h1 : f.cellA1 = .ok day) (h2 : f.rows = .ok rows)
    (h3 : f.mergeCells =
      .ok [{ value := val, startAxis := ColumnNumberToName (c0 + 1) ++ strconv_Itoa (r0 + 1),
             endAxis := ColumnNumberToName (c1 + 1) ++ strconv_Itoa (r0 + 2) }])
    (hm : gradeHeader rows = some m)
    (hgrade : ∀ e ∈ m, (strconv_Atoi e.2.1).isSome = true)
    (htime : ∀ i, 1 ≤ i → i < rows.length →
      (decodeTimeRange (f.rawCellText ("B".toList ++ strconv_Itoa (i + 1)))).isSome = true)
    (hr0 : 1 ≤ r0) (hr1 : r0 + 1 < rows.length)
    (hgrid : (rows.getD r0 []).get? c0 = some val)
    (hval : wellFormedCell m (c0, val) = true)
    (hdb : ∀ table, ∃ stored, db.create table (lessonsOf (parseSheet lower f)) = .ok stored ∧
      stored.length = (lessonsOf (parseSheet lower f)).length) :
    ∃ ls, (ParseExcel lower db (.ok { sheets := [f] }) store).1 = .ok ls ∧
      (otherWellFormedCells m rows r0 c0 = 5 → ls.length = 7) ∧
      (wellFormedCells m rows = 5 → ls.length = 6) := by
  have hgrade1 : ∀ col num letter, m.lookup col = some (num, letter) →
      (strconv_Atoi num).isSome = true :=
    fun col num letter h => hgrade (col, num, letter) (mem_of_lookup col (num, letter) m h)
  have hmc := @mergedRange_isSome lower f m day val r0 c0 c1 hgrade1
    (htime (r0 + 1) (by omega) hr1) hval
  obtain ⟨l, hl⟩ := Option.isSome_iff_exists.mp hmc
  have hps : parseSheet lower f = _ := parseSheet_ok f day rows _ m h1 h2 h3 hm
  simp only [List.filterMap_cons, hl, List.filterMap_nil] at hps
  obtain ⟨ls, hls, hlen⟩ := parseExcel_single_sheet db f store _ hname hps hdb
  have hcount : ls.length = wellFormedCells m rows + 1 := by
    rw [hlen, List.length_append, rowPass_length f m day rows hgrade1 htime]
    rfl
  refine ⟨ls, hls, ?_, ?_⟩
  · intro hcells
    rw [hcount, wellFormedCells_split m rows r0 c0 val hr0 hgrid hval, hcells]
  · intro hcells
    rw [hcount, hcells]

/-- C17 amended, at the example sheets: five ordinary lesson cells and the
merged range D4:D5 give (5 + 1) + 1 = 7 lessons; four ordinary lesson cells and
the merged range, five well-formed cells in the grid, give 5 + 1 = 6. -/
theorem C17_end_to_end_count_witness :
    (otherWellFormedCells exampleHeader
        [["Понедельник".toList, "Время".toList, "11А".toList, "12Б".toList],
         [[], "08:00-08:45".toList, "Math\nSmith\n101".toList, "Physics\nJones".toList],
         [[], "09:00-09:45".toList, "History".toList, "Chemistry".toList],
         [[], "10:00-10:45".toList, "Art".toList, "PE\nBrown".toList],
         [[], "11:00-11:45".toList]] 3 3 = 5 ∧
      ∃ ls, (ParseExcel exampleToLower keyedDB (.ok { sheets := [weekSheet] }) []).1 = .ok ls ∧
        ls.length = 7) ∧
    (wellFormedCells exampleHeader
        [["Понедельник".toList, "Время".toList, "11А".toList, "12Б".toList],
         [[], "08:00-08:45".toList, "Math\nSmith\n101".toList, "Physics\nJones".toList],
         [[], "09:00-09:45".toList, "History".toList, "Chemistry".toList],
         [[], "10:00-10:45".toList, [], "PE\nBrown".toList],
         [[], "11:00-11:45".toList]] = 5 ∧
      ∃ ls, (ParseExcel exampleToLower keyedDB (.ok { sheets := [fiveCellSheet] }) []).1 =
          .ok ls ∧ ls.length = 6) :=
  ⟨⟨by decide,
    (C17_end_to_end_count exampleToLower keyedDB weekSheet [] "Понедельник".toList
      "PE\nBrown".toList _ exampleHeader 3 3 3 (by decide) rfl rfl rfl (by decide) (by decide)
      (by intro i h1 h2; change i < 5 at h2; interval_cases i <;> decide)
      (by decide) (by decide) (by decide) (by decide)
      (fun _ => ⟨_, rfl, rfl⟩)).imp (fun _ h => ⟨h.1, h.2.1 (by decide)⟩)⟩,
   ⟨by decide,
    (C17_end_to_end_count exampleToLower keyedDB fiveCellSheet [] "Понедельник".toList
      "PE\nBrown".toList _ exampleHeader 3 3 3 (by decide) rfl rfl rfl (by decide) (by decide)
      (by intro i h1 h2; change i < 5 at h2; interval_cases i <;> decide)
      (by decide) (by decide) (by decide) (by decide)
      (fun _ => ⟨_, rfl, rfl⟩)).imp (fun _ h => ⟨h.1, h.2.2 (by decide)⟩)⟩⟩

/-- C18. The two builders agree: for a merged range with text `val`, start column
`startCol` and end row `rowIndex + 1` (addresses written as letters followed by
the decimal row number), the merged-range builder emits the lesson `l` if and
only if `parseRowLesson` for the cell at that row and column with text `val`
succeeds with `l`; the two lessons are then the same in every field. -/
theorem C18_builders_agree (lower : Char → Char)
    (f : Sheet) (colToGrade : GradeMap) (lessonDay val : Str)
    (rowIndex : Nat) (startCol startRow endCol : Str)
    (hsc : ∀ c ∈ startCol, isDigitRune c = false) (hsr : ∀ c ∈ startRow, isDigitRune c = true)
    (hec : ∀ c ∈ endCol, isDigitRune c = false) (l : Lesson) :
    parseMergedLesson lower f colToGrade lessonDay
        { value := val, startAxis := startCol ++ startRow,
          endAxis := endCol ++ strconv_Itoa (rowIndex + 1) } = some l ↔
      parseRowLesson lower f rowIndex startCol val colToGrade lessonDay = (l, true) := by
  rw [parseMergedLesson_eq, parseRowLesson_eq]
  simp only [startCol_of_axis _ _ hsc hsr,
    endRow_of_axis _ _ hec (strconv_Itoa_digits (rowIndex + 1))]
  by_cases hv : val = []
  · subst hv
    simp [assembleLesson_blank]
  · rw [if_neg hv]
    rcases assembleLesson lower (f.rawCellText ("B".toList ++ strconv_Itoa (rowIndex + 1)))
      (List.lookup startCol colToGrade) val lessonDay with _ | l1
    · simp
    · simp

/-- C18 at the range C2:C4 of the example sheet and the cell (row 4, column C). -/
theorem C18_builders_agree_witness :
    parseMergedLesson exampleToLower (threeRowSheet [] [] "10:30-11:15".toList) exampleHeader
        "Понедельник".toList
        { value := "Math\nSmith".toList, startAxis := "C".toList ++ "2".toList,
          endAxis := "C".toList ++ strconv_Itoa (3 + 1) } =
      some (parseRowLesson exampleToLower (threeRowSheet [] [] "10:30-11:15".toList) 3 "C".toList
        "Math\nSmith".toList exampleHeader "Понедельник".toList).1 ∧
    (parseRowLesson exampleToLower (threeRowSheet [] [] "10:30-11:15".toList) 3 "C".toList
        "Math\nSmith".toList exampleHeader "Понедельник".toList).1.LessonStart =
      time_Date 2000 1 1 10 30 0 0 :=
  ⟨(C18_builders_agree exampleToLower (threeRowSheet [] [] "10:30-11:15".toList) exampleHeader
      "Понедельник".toList "Math\nSmith".toList 3 "C".toList "2".toList "C".toList
      (by decide) (by decide) (by decide) _).2 (by decide),
    by decide⟩

/-- C19. Every lesson returned by `parseSheet`, from the row pass and from the
merged-range pass alike, has `LessonDay` equal to `parseDayToIndex` of the text
of A1; that index lies in 0..7 and is 0 exactly when the trimmed lower-cased
text of A1 contains no token of the table. -/
theorem C19_sheet_day_index (lower : Char → Char) (f : Sheet) (day : Str) (ls : List Lesson)
    (h1 : f.cellA1 = .ok day) (h : parseSheet lower f = .ok ls) :
    (∀ l ∈ ls, l.LessonDay = parseDayToIndex lower day) ∧
    0 ≤ parseDayToIndex lower day ∧ parseDayToIndex lower day ≤ 7 ∧
    (parseDayToIndex lower day = 0 ↔
      ∀ j, j < 8 → ¬ mentionsDay (strings_ToLower lower (strings_TrimSpace day)) j) := by
  have hc := parseDayToIndex_cases day
    (mentionsDay (strings_ToLower lower (strings_TrimSpace day))) rfl
  refine ⟨?_, ?_, ?_, ?_⟩
  · intro l hl
    obtain ⟨tc, gp, val, ha⟩ := parseSheet_mem f day ls l h1 h hl
    obtain ⟨name, group, teacher, room, sub, s, e, num, letter, g, -, -, -, -, rfl⟩ :=
      assembleLesson_some _ _ _ _ _ ha
    rfl
  · rcases hc with c | c | c | c | c | c | c | c <;> simp [c]
  · rcases hc with c | c | c | c | c | c | c | c <;> simp [c]
  · constructor
    · intro h0 j hj hm
      rw [h0] at hc
      have hj' : j = 0 ∨ j = 1 ∨ j = 2 ∨ j = 3 ∨ j = 4 ∨ j = 5 ∨ j = 6 ∨ j = 7 := by omega
      rcases hj' with rfl | rfl | rfl | rfl | rfl | rfl | rfl | rfl
      · simp [mentionsDay, weekdayTokens] at hm
      all_goals (rcases hc with c | c | c | c | c | c | c | c <;> simp_all)
    · intro hn
      rcases hc with c | c | c | c | c | c | c | c
      · exact absurd c.1 (hn 1 (by omega))
      · exact absurd c.2.1 (hn 2 (by omega))
      · exact absurd c.2.2.1 (hn 3 (by omega))
      · exact absurd c.2.2.2.1 (hn 4 (by omega))
      · exact absurd c.2.2.2.2.1 (hn 5 (by omega))
      · exact absurd c.2.2.2.2.2.1 (hn 6 (by omega))
      · exact absurd c.2.2.2.2.2.2.1 (hn 7 (by omega))
      · exact c.2.2.2.2.2.2.2

/-- C19 at the example sheet with A1 "Понедельник": every lesson has day 1. -/
theorem C19_sheet_day_index_witness :
    lessonsOf (parseSheet exampleToLower (threeRowSheet "08:00-08:45".toList [] "10:30-11:15".toList)) ≠ [] ∧
    (∀ l ∈ lessonsOf (parseSheet exampleToLower (threeRowSheet "08:00-08:45".toList [] "10:30-11:15".toList)),
      l.LessonDay = parseDayToIndex exampleToLower "Понедельник".toList) ∧
    parseDayToIndex exampleToLower "Понедельник".toList = 1 :=
  ⟨by decide,
    (C19_sheet_day_index exampleToLower (threeRowSheet "08:00-08:45".toList [] "10:30-11:15".toList)
      "Понедельник".toList _ rfl rfl).1,
    by decide⟩

end CnisBack
